import Mathlib

/-!
Shallow embedding of the Seeds proposals contract (src/src/seeds.proposals.cpp):
proposal lifecycle evaluation, staking thresholds, quorum, voting, vote
delegation with mimicry fan-out, the voice ledger and its decay, and the
payout schedule checks.

Modelling conventions, fixed once for the whole file:
* eosio account and symbolic names are modelled as strings; the ordering of
  the by-delegatee-delegator secondary index is modelled by the string order
  on the delegator component (the tables are kept sorted by delegator).
* `uint64_t` quantities are modelled as `Nat`.  Table fields that accumulate
  caller-supplied 64-bit amounts are updated through the wrap-around helpers
  `add64` / `sub64`, mirroring the unsigned two's-complement behaviour of the
  C++ operations.  Loop counters and sizes whose values cannot approach
  `2 ^ 64` use plain `Nat` arithmetic.
* `int64_t` asset amounts are modelled as `Int`.
* `double` expressions are modelled exactly as rationals; the implicit C++
  conversion from a non-negative `double` to `uint64_t` (truncation) is
  modelled by `ratFloorNat`.
* `eosio::check(cond, msg)` aborting the transaction is modelled by
  `Except String`; every action is all-or-nothing, so an `.error` result
  discards all intermediate state.
* `require_auth` is environmental (the chain validates it before the body
  runs) and has no effect on table state, so it is not part of the model.
* Cross-contract notifications (token transfers, escrow locks, reputation
  grants, onboarding calls) mutate other contracts and are outside the
  modelled state.  Deferred transactions sent to this same contract
  (`mimicvote`, `voteonbehalf`) are modelled explicitly by a queue.
-/

abbrev Name := String

deriving instance DecidableEq for Except

/-- The configuration table (`config_get`): a named numeric parameter map. -/
abbrev Config := Name → Nat

def UINT64_MOD : Nat := 18446744073709551616

/-- Wrap-around addition of two `uint64_t` values. -/
def add64 (a b : Nat) : Nat := (a + b) % UINT64_MOD

/-- Wrap-around subtraction of two `uint64_t` values. -/
def sub64 (a b : Nat) : Nat := (a % UINT64_MOD + UINT64_MOD - b % UINT64_MOD) % UINT64_MOD

/-- Conversion of a non-negative `double` value to `uint64_t` (truncation
    towards zero, i.e. floor for the non-negative values that arise here). -/
def ratFloorNat (q : ℚ) : Nat := (⌊q⌋).toNat

theorem add64_eq_of_lt {a b : Nat} (h : a + b < UINT64_MOD) : add64 a b = a + b := by
  simp [add64, Nat.mod_eq_of_lt h]

theorem sub64_eq_of_le {a b : Nat} (hba : b ≤ a) (ha : a < UINT64_MOD) : sub64 a b = a - b := by
  have hb : b < UINT64_MOD := lt_of_le_of_lt hba ha
  simp only [sub64, Nat.mod_eq_of_lt ha, Nat.mod_eq_of_lt hb]
  have h1 : a + UINT64_MOD - b = UINT64_MOD + (a - b) := by omega
  rw [h1, Nat.add_mod_left, Nat.mod_eq_of_lt (by omega)]

/-! ### Generic table helpers

eosio `multi_index` tables are modelled as association lists in iteration
order of the primary key.  Primary keys are unique by construction
(`emplace` is only ever reached behind a `find` miss), which the vote
uniqueness theorems track explicitly. -/

def tfind {κ α : Type} [BEq κ] (l : List (κ × α)) (k : κ) : Option α :=
  (l.find? (fun e => e.1 == k)).map (fun e => e.2)

def tupdate {κ α : Type} [BEq κ] (l : List (κ × α)) (k : κ) (v : α) : List (κ × α) :=
  l.map (fun e => if e.1 == k then (e.1, v) else e)

def tinsert {κ α : Type} (l : List (κ × α)) (k : κ) (v : α) : List (κ × α) :=
  l ++ [(k, v)]

def terase {κ α : Type} [BEq κ] (l : List (κ × α)) (k : κ) : List (κ × α) :=
  l.eraseP (fun e => e.1 == k)

def tget {κ : Type} [BEq κ] (l : List (κ × Nat)) (k : κ) : Nat :=
  (tfind l k).getD 0

/-! ### Name constants (from the contract header / constants namespaces) -/

/-- The account the proposals contract runs as. -/
def self_account : Name := "funds.seeds"

def alliance_type : Name := "alliance"
def campaign_type : Name := "campaign"
def milestone_type : Name := "milestone"
def campaign_invite_type : Name := "cmp.invite"
def campaign_funding_type : Name := "cmp.funding"

def status_open : Name := "open"
def status_evaluate : Name := "evaluate"
def status_passed : Name := "passed"
def status_rejected : Name := "rejected"

def stage_staged : Name := "staged"
def stage_active : Name := "active"
def stage_done : Name := "done"

def trust : Name := "trust"
def distrust : Name := "distrust"
def abstain : Name := "abstain"

def bankaccts_campaigns : Name := "gift.seeds"
def bankaccts_alliances : Name := "allies.seeds"
def bankaccts_milestone : Name := "milest.seeds"
def bankaccts_hyphabank : Name := "hypha.seeds"

def prop_active_size : Name := "prop.act.sz"
def user_active_size : Name := "user.act.sz"
def cycle_vote_power_size : Name := "votepow.sz"
def voice_size : Name := "voice.sz"

/-! ### Quorum, stake thresholds, payout schedule -/

/-- `proposals::get_quorum`: quorum as an integer percent value. -/
def get_quorum (cfg : Config) (total_proposals : Nat) : Nat :=
  let base_quorum := cfg "quorum.base"
  let quorum_min := cfg "quor.min.pct"
  let quorum_max := cfg "quor.max.pct"
  let quorum := if total_proposals ≠ 0 then base_quorum / total_proposals else 0
  min quorum_max (max quorum_min quorum)

/-- The clamp function exactly as the spec words it:
    `clamp(x, lo, hi) = min(hi, max(lo, x))`. -/
def specClamp (x lo hi : Nat) : Nat := min hi (max lo x)

/-- `proposals::get_type`.  In the source the second branch reads
    `fund == bankaccts::campaigns || bankaccts::milestone`; the right operand
    converts the nonzero name constant `bankaccts::milestone` to `true`, so
    the branch is taken for every fund other than the alliances bank and the
    trailing `return "none"_n` is unreachable. -/
def get_type (fund : Name) : Name :=
  if fund = bankaccts_alliances then alliance_type
  else if fund = bankaccts_campaigns ∨ bankaccts_milestone.length ≠ 0 then campaign_type
  else "none"

/-- `proposals::cap_stake`. -/
def cap_stake (cfg : Config) (fund : Name) : Nat :=
  if fund = bankaccts_campaigns then cfg "prop.cmp.cap"
  else if fund = bankaccts_alliances then cfg "prop.al.cap"
  else cfg "propmaxstake"

/-- `proposals::min_stake`.  `prop_percentage` is a `double`; the product
    `prop_percentage * quantity.amount / 100` is converted to `uint64_t`
    when stored into the intermediate asset. -/
def min_stake (cfg : Config) (quantityAmount : Int) (fund : Name) : Except String Nat :=
  if fund = bankaccts_campaigns then
    let prop_percentage : ℚ := (cfg "prop.cmp.pct" : ℚ) / 10000
    let prop_max := cfg "prop.cmp.cap"
    let prop_min := cfg "prop.cmp.min"
    let qpp := ratFloorNat (prop_percentage * (quantityAmount : ℚ) / 100)
    .ok (min prop_max (max prop_min qpp))
  else if fund = bankaccts_alliances then
    let prop_percentage : ℚ := (cfg "prop.al.pct" : ℚ) / 10000
    let prop_max := cfg "prop.al.cap"
    let prop_min := cfg "prop.al.min"
    let qpp := ratFloorNat (prop_percentage * (quantityAmount : ℚ) / 100)
    .ok (min prop_max (max prop_min qpp))
  else if fund = bankaccts_milestone then
    let prop_percentage : ℚ := (cfg "propstakeper" : ℚ)
    let prop_max := cfg "propminstake"
    let prop_min := cfg "propminstake"
    let qpp := ratFloorNat (prop_percentage * (quantityAmount : ℚ) / 100)
    .ok (min prop_max (max prop_min qpp))
  else .error "unknown proposal type, invalid fund"

/-- `proposals::is_enough_stake`.  The C++ comparison
    `staked.amount >= min` promotes the signed amount to `uint64_t`; staked
    amounts are maintained non-negative, where the two readings agree. -/
def is_enough_stake (cfg : Config) (stakedAmount quantityAmount : Int) (fund : Name) :
    Except String Bool :=
  (min_stake cfg quantityAmount fund).map (fun m : Nat => decide ((m : Int) ≤ stakedAmount))

/-- `proposals::get_payout_amount`.  The final slice pays the remaining
    amount; earlier slices pay `percentage[age]/100` of the total, with the
    `double` product truncated on conversion to `uint64_t`. -/
def get_payout_amount (pay_percentages : List Nat) (age : Nat)
    (totalAmount currentPayout : Int) : Int :=
  if pay_percentages.length ≤ age then 0
  else if age = pay_percentages.length - 1 then totalAmount - currentPayout
  else
    let payout_percentage : ℚ := (pay_percentages.getD age 0 : ℚ) / 100
    ⌊payout_percentage * (totalAmount : ℚ)⌋

/-! ### Cycle statistics and sizes -/

structure CycleStats where
  propcycle : Nat := 0
  start_time : Nat := 0
  end_time : Nat := 0
  num_proposals : Nat := 0
  num_votes : Nat := 0
  total_voice_cast : Nat := 0
  total_favour : Nat := 0
  total_against : Nat := 0
  total_citizens : Nat := 0
  quorum_vote_base : Nat := 0
  quorum_votes_needed : Nat := 0
  total_eligible_voters : Nat := 0
  unity_needed : ℚ := 0
  active_props : List Nat := []
  eval_props : List Nat := []
deriving Repr, DecidableEq

/-- `proposals::size_change_s` (via `size_change`): missing counters can only
    be created with a non-negative delta; negative deltas clamp at zero. -/
def size_change_t (sizes : List (Name × Nat)) (nm : Name) (delta : Int) :
    Except String (List (Name × Nat)) :=
  match tfind sizes nm with
  | none =>
    if delta < 0 then .error "can not add negative size"
    else .ok (tinsert sizes nm delta.toNat)
  | some sz =>
    let newsize : Nat := if delta < 0 ∧ (sz : Int) < -delta then 0 else ((sz : Int) + delta).toNat
    .ok (tupdate sizes nm newsize)

/-- `proposals::update_cycle_stats_from_proposal`: called with the current
    cycle's row; a missing row makes the `modify` call abort.  The local
    recomputation of `quorum_vote_base` in the source is dead code and is
    omitted; the stored `item.quorum_vote_base` is the value used. -/
def update_cycle_stats_from_proposal (cfg : Config) (proposal_id : Nat) (array : Name)
    (cur : Option CycleStats) : Except String (Option CycleStats) :=
  match cur with
  | none => .error "cyclestats row for the current cycle not found"
  | some item =>
    if array = stage_active then
      let n := item.num_proposals + 1
      .ok (some { item with
        num_proposals := n
        active_props := item.active_props ++ [proposal_id]
        quorum_votes_needed :=
          ratFloorNat ((item.quorum_vote_base : ℚ) * ((get_quorum cfg n : ℚ) / 100)) })
    else if array = status_evaluate then
      .ok (some { item with eval_props := item.eval_props ++ [proposal_id] })
    else .ok (some item)

/-! ### Proposals and evaluation -/

structure Proposal where
  id : Nat
  creator : Name := ""
  recipient : Name := ""
  quantity : Int := 0
  staked : Int := 0
  executed : Bool := false
  total : Nat := 0
  favour : Nat := 0
  against : Nat := 0
  title : String := ""
  summary : String := ""
  description : String := ""
  image : String := ""
  url : String := ""
  creation_date : Nat := 0
  status : Name := status_open
  stage : Name := stage_staged
  fund : Name := ""
  pay_percentages : List Nat := []
  passed_cycle : Nat := 0
  age : Nat := 0
  current_payout : Int := 0
  campaign_type : Name := campaign_funding_type
  max_amount_per_invite : Int := 0
  planted : Int := 0
  reward : Int := 0
  campaign_id : Nat := 0
deriving Repr, DecidableEq

def pfind (props : List Proposal) (id : Nat) : Option Proposal :=
  props.find? (fun p => p.id == id)

def pmodify : List Proposal → Nat → (Proposal → Proposal) → List Proposal
  | [], _, _ => []
  | p :: rest, id, f => if p.id == id then f p :: rest else p :: pmodify rest id f

/-- The `passed` boolean of `proposals::evalproposal`:
    `favour > 0 && fav >= double(favour + against) * majority`. -/
def eval_passed (prop_majority : Nat) (p : Proposal) : Bool :=
  decide (0 < p.favour) &&
  decide (((p.favour + p.against : Nat) : ℚ) * ((prop_majority : ℚ) / 100) ≤ (p.favour : ℚ))

/-- The `valid_quorum` boolean of `proposals::evalproposal`: in evaluate
    status only unity is re-checked; in open status the favour tally must
    reach the quorum requirement. -/
def eval_valid_quorum (quorum_votes_needed : Nat) (p : Proposal) : Bool :=
  if p.status = status_evaluate then true else decide (quorum_votes_needed ≤ p.favour)

/-- The (number of active proposals, eligible voters, quorum votes needed)
    triple read at the top of `proposals::evalproposal`: from the cyclestats
    row of the evaluated cycle when it exists, otherwise from the size
    counters (with no quorum requirement). -/
def eval_stats (cstatsEval : Option CycleStats) (sizes : List (Name × Nat)) :
    Nat × Nat × Nat :=
  match cstatsEval with
  | some cs => (cs.num_proposals, cs.total_eligible_voters, cs.quorum_votes_needed)
  | none => (tget sizes prop_active_size, tget sizes user_active_size, 0)

/-- `proposals::evalproposal`.  Inputs: the cyclestats row of the cycle the
    evaluation was scheduled for (`cstatsEval`), the row of the now-current
    cycle (`curStats`, target of `update_cycle_stats_from_proposal`), the
    sizes table and the proposals table.  External transfers (refund, burn,
    payout, escrow, punish, campaign-fund return) touch other contracts and
    are not part of the returned state.  The local
    `quorum = get_quorum(number_active_proposals)` in the source is unused. -/
def evalproposal (cfg : Config) (proposal_id prop_cycle : Nat)
    (cstatsEval curStats : Option CycleStats) (sizes : List (Name × Nat))
    (props : List Proposal) :
    Except String (List Proposal × Option CycleStats × List (Name × Nat)) :=
  let prop_majority := cfg "propmajority"
  let stats := eval_stats cstatsEval sizes
  let total_eligible_voters := stats.2.1
  let quorum_votes_needed := stats.2.2
  if total_eligible_voters = 0 then
    .error "no eligible voters - likely an error; can not run proposals."
  else
    match pfind props proposal_id with
    | none => .ok (props, curStats, sizes)
    | some p =>
      if p.stage = stage_active then
        if eval_passed prop_majority p && eval_valid_quorum quorum_votes_needed p then
          if p.status = status_open then
            let payout_amount := get_payout_amount p.pay_percentages 0 p.quantity p.current_payout
            let props1 := pmodify props proposal_id (fun prop =>
              { prop with passed_cycle := prop_cycle, age := 0, staked := 0,
                          status := status_evaluate,
                          current_payout := prop.current_payout + payout_amount })
            match update_cycle_stats_from_proposal cfg p.id status_evaluate curStats with
            | .error e => .error e
            | .ok cur1 =>
              match size_change_t sizes prop_active_size (-1) with
              | .error e => .error e
              | .ok sizes1 => .ok (props1, cur1, sizes1)
          else
            let age := p.age + 1
            let payout_amount := get_payout_amount p.pay_percentages age p.quantity p.current_payout
            let num_cycles := p.pay_percentages.length - 1
            if age = num_cycles then
              let props1 := pmodify props proposal_id (fun prop =>
                { prop with age := age, executed := true, status := status_passed,
                            stage := stage_done,
                            current_payout := prop.current_payout + payout_amount })
              match size_change_t sizes prop_active_size (-1) with
              | .error e => .error e
              | .ok sizes1 => .ok (props1, curStats, sizes1)
            else
              let props1 := pmodify props proposal_id (fun prop =>
                { prop with age := age,
                            current_payout := prop.current_payout + payout_amount })
              match update_cycle_stats_from_proposal cfg p.id status_evaluate curStats with
              | .error e => .error e
              | .ok cur1 =>
                match size_change_t sizes prop_active_size (-1) with
                | .error e => .error e
                | .ok sizes1 => .ok (props1, cur1, sizes1)
        else
          let props1 := pmodify props proposal_id (fun prop =>
            { prop with
                passed_cycle := if ¬ p.status = status_evaluate then prop_cycle
                                else prop.passed_cycle,
                executed := false, staked := 0,
                status := status_rejected, stage := stage_done })
          match size_change_t sizes prop_active_size (-1) with
          | .error e => .error e
          | .ok sizes1 => .ok (props1, curStats, sizes1)
      else if p.stage = stage_staged then
        match is_enough_stake cfg p.staked p.quantity p.fund with
        | .error e => .error e
        | .ok enough =>
          if enough then
            let props1 := pmodify props proposal_id (fun prop => { prop with stage := stage_active })
            match size_change_t sizes prop_active_size 1 with
            | .error e => .error e
            | .ok sizes1 =>
              match update_cycle_stats_from_proposal cfg p.id stage_active curStats with
              | .error e => .error e
              | .ok cur1 => .ok (props1, cur1, sizes1)
          else .ok (props, curStats, sizes)
      else .ok (props, curStats, sizes)

/-! ### Voting state -/

structure VoteRow where
  account : Name
  amount : Nat
  favour : Bool
deriving Repr, DecidableEq

structure DelegateRow where
  delegator : Name
  delegatee : Name
  weight : ℚ
  timestamp : Nat
deriving Repr, DecidableEq

/-- The tables of the proposals contract touched by the voting, delegation
    and voice operations.  The two voice tables are the contract-self scope
    and the alliance scope; `votes` maps a proposal id (the table scope) to
    its vote rows; `curStats` is the cyclestats row of the current
    propcycle; `votedprops` is the voted-proposals table of the current
    propcycle. -/
structure GovState where
  users : List (Name × Name) := []
  props : List Proposal := []
  votes : List (Nat × List VoteRow) := []
  voiceSelf : List (Name × Nat) := []
  voiceAlliance : List (Name × Nat) := []
  delSelf : List DelegateRow := []
  delAlliance : List DelegateRow := []
  participants : List (Name × Nat × Bool) := []
  actives : List (Name × Nat) := []
  lastprops : List (Name × Nat) := []
  minstakeTbl : List (Nat × Nat) := []
  sizes : List (Name × Nat) := []
  curStats : Option CycleStats := none
  votedprops : List Nat := []
  propcycle : Nat := 0
deriving Repr, DecidableEq

def vfind (votes : List (Nat × List VoteRow)) (pid : Nat) : List VoteRow :=
  match votes.find? (fun e => e.1 == pid) with
  | some e => e.2
  | none => []

def vset : List (Nat × List VoteRow) → Nat → List VoteRow → List (Nat × List VoteRow)
  | [], pid, rows => [(pid, rows)]
  | e :: rest, pid, rows =>
    if e.1 == pid then (e.1, rows) :: rest else e :: vset rest pid rows

/-- `proposals::check_citizen`. -/
def check_citizen (st : GovState) (account : Name) : Except String Unit :=
  match tfind st.users account with
  | none => .error "no user"
  | some stt => if stt = "citizen" then .ok () else .error "user is not a citizen"

/-- `proposals::check_resident`. -/
def check_resident (st : GovState) (account : Name) : Except String Unit :=
  match tfind st.users account with
  | none => .error "no user"
  | some stt =>
    if stt = "citizen" ∨ stt = "resident" then .ok ()
    else .error "user is not a resident or citizen"

/-- `proposals::check_voice_scope`. -/
def check_voice_scope (scope : Name) : Except String Unit :=
  if scope = self_account ∨ scope = alliance_type then .ok ()
  else .error "invalid scope for voice"

def scopeVoices (st : GovState) (scope : Name) : List (Name × Nat) :=
  if scope = alliance_type then st.voiceAlliance else st.voiceSelf

def setScopeVoices (st : GovState) (scope : Name) (l : List (Name × Nat)) : GovState :=
  if scope = alliance_type then { st with voiceAlliance := l } else { st with voiceSelf := l }

def delTable (st : GovState) (scope : Name) : List DelegateRow :=
  if scope = alliance_type then st.delAlliance else st.delSelf

def setDelTable (st : GovState) (scope : Name) (l : List DelegateRow) : GovState :=
  if scope = alliance_type then { st with delAlliance := l } else { st with delSelf := l }

/-- `proposals::voice_change`.  With the empty scope (the `addvoice` path)
    both default-path tables are kept in lockstep; the source only handles
    the rows-in-both and rows-in-neither cases, so an account present in
    exactly one table falls through with no modification and a zero
    percentage.  With a concrete scope the single scoped table is used and
    a missing row is an error. -/
def voice_change (st : GovState) (user : Name) (amount : Nat) (reduce : Bool) (scope : Name) :
    Except String (ℚ × GovState) :=
  if scope = "" then
    match tfind st.voiceSelf user, tfind st.voiceAlliance user with
    | none, none =>
      if reduce then .error "user can not have negative voice balance"
      else
        match size_change_t st.sizes voice_size 1 with
        | .error e => .error e
        | .ok sizes1 =>
          .ok (0, { st with voiceSelf := tinsert st.voiceSelf user amount,
                            sizes := sizes1,
                            voiceAlliance := tinsert st.voiceAlliance user amount })
    | some b, some ba =>
      if reduce then
        if amount ≤ b ∧ amount ≤ ba then
          .ok ((amount : ℚ) / (b : ℚ),
               { st with voiceSelf := tupdate st.voiceSelf user (sub64 b amount),
                         voiceAlliance := tupdate st.voiceAlliance user (sub64 ba amount) })
        else .error "voice balance exceeded"
      else
        .ok (0, { st with voiceSelf := tupdate st.voiceSelf user (add64 b amount),
                          voiceAlliance := tupdate st.voiceAlliance user (add64 ba amount) })
    | _, _ => .ok (0, st)
  else
    match check_voice_scope scope with
    | .error e => .error e
    | .ok _ =>
      match tfind (scopeVoices st scope) user with
      | none => .error "user does not have voice"
      | some b =>
        if reduce then
          if amount ≤ b then
            .ok ((amount : ℚ) / (b : ℚ),
                 setScopeVoices st scope (tupdate (scopeVoices st scope) user (sub64 b amount)))
          else .error "voice balance exceeded"
        else
          .ok (0, setScopeVoices st scope (tupdate (scopeVoices st scope) user (add64 b amount)))

/-- `proposals::is_trust_delegated`. -/
def is_trust_delegated (st : GovState) (account scope : Name) : Bool :=
  ((delTable st scope).find? (fun e => e.delegator == account)).isSome

/-- The by-delegatee-delegator secondary index restricted to one delegatee,
    in index order (the delegate tables are kept sorted by delegator). -/
def delIndex (st : GovState) (scope dlgte : Name) : List DelegateRow :=
  (delTable st scope).filter (fun e => e.delegatee == dlgte)

/-- Deferred transactions the contract sends to itself during voting. -/
inductive Deferred where
  | mimic (delegatee delegator scope : Name) (proposal_id : Nat)
      (percentage_used : ℚ) (opt : Name) (chunksize : Nat)
  | voteOnBehalf (voter : Name) (proposal_id : Nat) (amount : Nat) (opt : Name)
deriving Repr, DecidableEq

/-- `proposals::send_mimic_delegatee_vote`: if at least one delegation edge
    targets the delegatee, schedule a `mimicvote` starting at the first such
    delegator (the lower bound of the secondary index). -/
def send_mimic_delegatee_vote (cfg : Config) (st : GovState) (dlgte scope : Name)
    (proposal_id : Nat) (percentage_used : ℚ) (opt : Name) : List Deferred :=
  let batch_size := cfg "batchsize"
  match delIndex st scope dlgte with
  | [] => []
  | e :: _ => [Deferred.mimic dlgte e.delegator scope proposal_id percentage_used opt batch_size]

/-- `proposals::increase_voice_cast`: updates the current cycle's stats row
    when it exists. -/
def increase_voice_cast (st : GovState) (amount : Nat) (opt : Name) : GovState :=
  match st.curStats with
  | none => st
  | some item =>
    { st with curStats := some { item with
        total_voice_cast := add64 item.total_voice_cast amount
        total_favour := if opt = trust then add64 item.total_favour amount else item.total_favour
        total_against := if opt = distrust then add64 item.total_against amount
                         else item.total_against
        num_votes := item.num_votes + 1 } }

/-- `proposals::add_voted_proposal`. -/
def add_voted_proposal (st : GovState) (pid : Nat) : GovState :=
  if st.votedprops.contains pid then st else { st with votedprops := st.votedprops ++ [pid] }

/-- The participants-table update in `proposals::vote_aux` (the reputation
    grant it sends is an external action on the accounts contract). -/
def vote_participant_update (st : GovState) (voter : Name) (opt : Name) : GovState :=
  match tfind st.participants voter with
  | none => { st with participants := tinsert st.participants voter (1, ¬ opt = abstain) }
  | some pr =>
    { st with participants :=
        tupdate st.participants voter (pr.1 + 1, if ¬ opt = abstain then true else pr.2) }

/-- The actives-table update in `proposals::vote_aux`. -/
def vote_actives_update (st : GovState) (voter : Name) (now : Nat) :
    Except String GovState :=
  match tfind st.actives voter with
  | none =>
    match size_change_t st.sizes user_active_size 1 with
    | .error e => .error e
    | .ok sizes1 => .ok { st with actives := tinsert st.actives voter now, sizes := sizes1 }
  | some _ => .ok { st with actives := tupdate st.actives voter now }

/-- The part of `proposals::vote_aux` after the validity checks and tally
    update: debit voice, record the vote row, reject self-votes of
    delegators, fan out to delegators, and update the participant, active,
    voted-proposal and cycle-stats bookkeeping.  Factored out of `vote_aux`
    (with the tally-updated state `st1` and the computed `scope`) so each
    stage can be reasoned about separately. -/
def vote_aux_tail (cfg : Config) (now : Nat) (st1 : GovState) (voter : Name) (id : Nat)
    (amount : Nat) (opt : Name) (is_new is_delegated : Bool) (scope : Name) :
    Except String (GovState × List Deferred) :=
  match voice_change st1 voter amount true scope with
  | .error e => .error e
  | .ok (percentage_used, st2) =>
  let st3 := { st2 with votes := vset st2.votes id (vfind st2.votes id ++
                                  [{ account := voter, amount := amount, favour := opt == trust }]) }
  if ¬ is_delegated ∧ is_trust_delegated st3 voter scope then
    .error "voice is delegated, user can not vote by itself"
  else
  let ds := send_mimic_delegatee_vote cfg st3 voter scope id percentage_used opt
  let st4 := if is_new then vote_participant_update st3 voter opt else st3
  match vote_actives_update st4 voter now with
  | .error e => .error e
  | .ok st5 =>
  let st6 := add_voted_proposal st5 id
  let st7 := increase_voice_cast st6 amount opt
  .ok (st7, ds)

/-- `proposals::vote_aux`.  Returns the updated state together with the
    deferred transactions sent (the mimic fan-out trigger).  The reputation
    grants are external actions on the accounts contract. -/
def vote_aux (cfg : Config) (now : Nat) (st : GovState) (voter : Name) (id : Nat)
    (amount : Nat) (opt : Name) (is_new is_delegated : Bool) :
    Except String (GovState × List Deferred) :=
  match check_citizen st voter with
  | .error e => .error e
  | .ok _ =>
  match pfind st.props id with
  | none => .error "Proposal not found"
  | some p =>
  if p.executed then .error "Proposal was already executed" else
  if ¬ p.stage = stage_active then .error "not active stage" else
  if is_new ∧ ¬ p.status = status_open then
    .error "the user can not vote for this proposal, as the proposal is in evaluate state" else
  if ((vfind st.votes id).find? (fun r => r.account == voter)).isSome then
    .error "only one vote" else
  if ¬ (opt = trust ∨ opt = distrust ∨ opt = abstain) then .error "Invalid option" else
  let st1 : GovState :=
    if opt = trust then
      { st with props := pmodify st.props id (fun prop =>
          { prop with total := add64 prop.total amount, favour := add64 prop.favour amount }) }
    else if opt = distrust then
      { st with props := pmodify st.props id (fun prop =>
          { prop with total := add64 prop.total amount, against := add64 prop.against amount }) }
    else st
  let scope := if get_type p.fund = alliance_type then alliance_type else self_account
  vote_aux_tail cfg now st1 voter id amount opt is_new is_delegated scope

/-- `proposals::revert_vote`: erases a pre-existing favour vote, but only
    while the proposal is in evaluate status and the vote is a trust vote
    with a positive amount. -/
def revert_vote (st : GovState) (voter : Name) (id : Nat) :
    Except String (Bool × GovState) :=
  match pfind st.props id with
  | none => .error "Proposal not found"
  | some p =>
    match (vfind st.votes id).find? (fun r => r.account == voter) with
    | none => .ok (false, st)
    | some vr =>
      if ¬ p.status = status_evaluate then .error "Proposal is not in evaluate state"
      else if ¬ (vr.favour = true ∧ 0 < vr.amount) then .error "Only trust votes can be changed"
      else
        let st1 := { st with props := pmodify st.props id (fun prop =>
          { prop with total := sub64 prop.total vr.amount,
                      favour := sub64 prop.favour vr.amount }) }
        let rows2 := (vfind st1.votes id).eraseP (fun r => r.account == voter)
        let st2 := { st1 with votes := vset st1.votes id rows2 }
        .ok (true, st2)

/-- `proposals::favour`. -/
def favourAct (cfg : Config) (now : Nat) (st : GovState) (voter : Name) (id amount : Nat) :
    Except String (GovState × List Deferred) :=
  vote_aux cfg now st voter id amount trust true false

/-- `proposals::against`. -/
def againstAct (cfg : Config) (now : Nat) (st : GovState) (voter : Name) (id amount : Nat) :
    Except String (GovState × List Deferred) :=
  match revert_vote st voter id with
  | .error e => .error e
  | .ok (reverted, st1) => vote_aux cfg now st1 voter id amount distrust (!reverted) false

/-- `proposals::neutral`. -/
def neutralAct (cfg : Config) (now : Nat) (st : GovState) (voter : Name) (id : Nat) :
    Except String (GovState × List Deferred) :=
  vote_aux cfg now st voter id 0 abstain true false

/-- `proposals::voteonbehalf`. -/
def voteonbehalf (cfg : Config) (now : Nat) (st : GovState) (voter : Name) (id amount : Nat)
    (opt : Name) : Except String (GovState × List Deferred) :=
  if opt = distrust then
    match revert_vote st voter id with
    | .error e => .error e
    | .ok (reverted, st1) => vote_aux cfg now st1 voter id amount opt (!reverted) true
  else vote_aux cfg now st voter id amount opt true true

/-- Byte-wise order on names, modelling the ordering of the
    by-delegatee-delegator secondary index key. -/
def charListLe : List Char → List Char → Bool
  | [], _ => true
  | _ :: _, [] => false
  | a :: as, b :: bs =>
    if a.toNat < b.toNat then true
    else if b.toNat < a.toNat then false
    else charListLe as bs

def nameLe (a b : Name) : Bool := charListLe a.data b.data

/-- One step of the delegator loop in `proposals::mimicvote`: for trust and
    distrust the delegator's scoped voice row is dereferenced without a
    presence check (a missing row aborts the whole deferred transaction);
    the vote amount is the delegator's own balance scaled by the fraction
    the delegatee used.  Abstain fans out with amount zero. -/
def mimic_send_for (st : GovState) (scope : Name) (pid : Nat) (pct : ℚ) (opt : Name)
    (acc : List Deferred) (e : DelegateRow) : Except String (List Deferred) :=
  if opt = trust ∨ opt = distrust then
    match tfind (scopeVoices st scope) e.delegator with
    | none => .error "cannot dereference end iterator"
    | some bal => .ok (acc ++ [Deferred.voteOnBehalf e.delegator pid
                                 (ratFloorNat ((bal : ℚ) * pct)) opt])
  else if opt = abstain then .ok (acc ++ [Deferred.voteOnBehalf e.delegator pid 0 abstain])
  else .ok acc

/-- `proposals::mimicvote`: resumes the by-delegatee-delegator index at the
    exact (delegatee, delegator) key, emits one vote-on-behalf per delegator
    in the chunk, and reschedules itself at the next delegator if rows
    remain. -/
def mimicvote (cfg : Config) (st : GovState) (dlgte dlgtor scope : Name) (pid : Nat)
    (pct : ℚ) (opt : Name) (chunksize : Nat) : Except String (List Deferred) :=
  match check_voice_scope scope with
  | .error e => .error e
  | .ok _ =>
    let idx := (delIndex st scope dlgte).filter (fun e => nameLe dlgtor e.delegator)
    match idx with
    | [] => .ok []
    | e0 :: _ =>
      if ¬ e0.delegator = dlgtor then .ok []
      else
        match (idx.take chunksize).foldlM (mimic_send_for st scope pid pct opt) [] with
        | .error e => .error e
        | .ok calls =>
          match idx.drop chunksize with
          | [] => .ok calls
          | e1 :: _ => .ok (calls ++ [Deferred.mimic dlgte e1.delegator scope pid pct opt chunksize])

/-- Execution of one deferred transaction. -/
def execDeferred (cfg : Config) (now : Nat) (st : GovState) (d : Deferred) :
    Except String (GovState × List Deferred) :=
  match d with
  | .mimic de dr scope pid pct opt chunk =>
    match mimicvote cfg st de dr scope pid pct opt chunk with
    | .error e => .error e
    | .ok ds => .ok (st, ds)
  | .voteOnBehalf v pid amt opt => voteonbehalf cfg now st v pid amt opt

/-- The deferred-transaction queue, run to quiescence (fuel-bounded).  A
    deferred transaction that aborts is discarded without affecting the
    others. -/
def runQueue (cfg : Config) (now : Nat) : Nat → GovState → List Deferred → GovState
  | 0, st, _ => st
  | _ + 1, st, [] => st
  | fuel + 1, st, d :: rest =>
    match execDeferred cfg now st d with
    | .ok (st1, emitted) => runQueue cfg now fuel st1 (rest ++ emitted)
    | .error _ => runQueue cfg now fuel st rest

/-! ### Delegation -/

/-- The cycle-detection loop of `proposals::delegate`: returns the
    `has_no_cycles` flag.  The walk succeeds only by reaching an account
    with no outgoing edge within the depth bound; returning to the
    delegator, or exhausting the bound, leaves the flag false. -/
def walk_delegatee_chain (edges : List DelegateRow) (delegator : Name) :
    Name → Nat → Bool
  | _, 0 => false
  | current, depth + 1 =>
    match edges.find? (fun e => e.delegator == current) with
    | some e =>
      if e.delegatee = delegator then false
      else walk_delegatee_chain edges delegator e.delegatee depth
    | none => true

/-- Insertion into a delegate table keeping the delegator-sorted index
    order. -/
def insertEdgeSorted : List DelegateRow → DelegateRow → List DelegateRow
  | [], e => [e]
  | x :: xs, e =>
    if e.delegator ≤ x.delegator then e :: x :: xs else x :: insertEdgeSorted xs e

def upsert_delegate (edges : List DelegateRow) (delegator delegatee : Name) (now : Nat) :
    List DelegateRow :=
  if (edges.find? (fun e => e.delegator == delegator)).isSome then
    edges.map (fun e =>
      if e.delegator == delegator then
        { e with delegatee := delegatee, weight := 1, timestamp := now }
      else e)
  else insertEdgeSorted edges
    { delegator := delegator, delegatee := delegatee, weight := 1, timestamp := now }

/-- `proposals::delegate`.  The source checks that the *delegator* has a
    voice row in the scope (the error text says delegatee); a zero balance
    row passes. -/
def delegateAct (cfg : Config) (now : Nat) (st : GovState) (delegator delegatee scope : Name) :
    Except String GovState :=
  match check_voice_scope scope with
  | .error e => .error e
  | .ok _ =>
    match tfind (scopeVoices st scope) delegator with
    | none => .error "delegatee does not have voice"
    | some _ =>
      let max_depth := cfg "dlegate.dpth"
      if walk_delegatee_chain (delTable st scope) delegator delegatee max_depth then
        .ok (setDelTable st scope (upsert_delegate (delTable st scope) delegator delegatee now))
      else .error "can not add delegatee, cycles are not allowed"

/-! ### Voice decay -/

/-- The singleton cycle table. -/
structure CycleRec where
  propcycle : Nat := 0
  t_onperiod : Nat := 0
  t_voicedecay : Nat := 0
deriving Repr, DecidableEq

/-- The chunked loop of `proposals::decayvoice`: walks the default-scope
    voice table, multiplies each visited balance (and the matching alliance
    row, when present) by the decay multiplier once, and reports the cursor
    for the continuation when the chunk budget runs out. -/
def decay_chunk (multiplier : ℚ) :
    Nat → List (Name × Nat) → List (Name × Nat) →
    (List (Name × Nat) × List (Name × Nat) × Option Name)
  | _, [], va => ([], va, none)
  | 0, (a, b) :: rest, va => ((a, b) :: rest, va, some a)
  | count + 1, (a, b) :: rest, va =>
    let va1 := match tfind va a with
      | some ab => tupdate va a (ratFloorNat ((ab : ℚ) * multiplier))
      | none => va
    let out := decay_chunk multiplier count rest va1
    ((a, ratFloorNat ((b : ℚ) * multiplier)) :: out.1, out.2.1, out.2.2)

/-- `proposals::decayvoice`: one deferred chunk.  The returned cursor, when
    present, is the argument of the rescheduled continuation. -/
def decayvoice (cfg : Config) (start : Option Name) (chunksize : Nat)
    (vs va : List (Name × Nat)) :
    Except String (List (Name × Nat) × List (Name × Nat) × Option Name) :=
  let percentage_decay := cfg "vdecayprntge"
  if 100 < percentage_decay then
    .error "Voice decay parameter can not be more than 100 percent."
  else
    let multiplier : ℚ := (100 - (percentage_decay : ℚ)) / 100
    let front := match start with
      | none => []
      | some a => vs.takeWhile (fun e => ¬ e.1 == a)
    let tail := match start with
      | none => vs
      | some a => vs.dropWhile (fun e => ¬ e.1 == a)
    let out := decay_chunk multiplier chunksize tail va
    .ok (front ++ out.1, out.2.1, out.2.2)

/-- `proposals::decayvoices`: the decay trigger.  The two elapsed-time
    conditions use `uint64_t` subtraction.  On trigger the decay baseline is
    set to now and the first decay chunk runs with the configured batch
    size. -/
def decayvoices (cfg : Config) (now : Nat) (c : CycleRec)
    (vs va : List (Name × Nat)) :
    Except String (CycleRec × List (Name × Nat) × List (Name × Nat) × Option Name) :=
  let decay_time := cfg "decaytime"
  let decay_sec := cfg "propdecaysec"
  if c.t_onperiod < now ∧ decay_time ≤ sub64 now c.t_onperiod ∧
      decay_sec ≤ sub64 now c.t_voicedecay then
    let c1 := { c with t_voicedecay := now }
    match decayvoice cfg none (cfg "batchsize") vs va with
    | .error e => .error e
    | .ok out => .ok (c1, out)
  else .ok (c, vs, va, none)

/-- `proposals::calculate_decay`: the retroactive decay formula used by
    `recover_voice` when an account re-enters active status.  This is where
    the exponent `n = (t_voicedecay - (t_onperiod + decay_time)) / decay_sec + 1`
    lives. -/
def calculate_decay (cfg : Config) (c : CycleRec) (voiceAmount : Nat) :
    Except String Nat :=
  let decay_percentage := cfg "vdecayprntge"
  let decay_time := cfg "decaytime"
  let decay_sec := cfg "propdecaysec"
  let temp := c.t_onperiod + decay_time
  if 100 < decay_percentage then
    .error "The decay percentage could not be greater than 100 percent"
  else if c.t_voicedecay ≤ temp then .ok voiceAmount
  else
    let n := (c.t_voicedecay - temp) / decay_sec + 1
    let multiplier : ℚ := 1 - (decay_percentage : ℚ) / 100
    .ok (ratFloorNat ((voiceAmount : ℚ) * multiplier ^ n))

/-! ### Proposal creation and update -/

/-- Sum of the payout percentages, accumulated in `uint64_t` exactly as the
    loop in `proposals::check_percentages` does. -/
def sum64 (l : List Nat) : Nat := l.foldl add64 0

/-- `proposals::check_percentages`.  `num_cycles` is
    `pay_percentages.size() - 1` in `uint64_t`, so an empty schedule wraps
    around (and is rejected by the upper bound). -/
def check_percentages (pay_percentages : List Nat) : Except String Unit :=
  let num_cycles :=
    if pay_percentages.length = 0 then UINT64_MOD - 1 else pay_percentages.length - 1
  if num_cycles < 3 then
    .error "the number of cycles is to small, it must be minimum 3"
  else if 24 < num_cycles then
    .error "the number of cycles is to big, it must be maximum 24"
  else if ¬ sum64 pay_percentages = 100 then .error "percentages must add up to 100"
  else if 25 < pay_percentages.getD 0 0 then
    .error "the initial payout must be smaller than 25 percent"
  else .ok ()

/-- Modelled from the spec: `utils::check_asset` lives in a header that is
    not part of the provided sources; per the spec (sections 6 and 7)
    malformed quantities are rejected.  We model it as requiring a
    non-negative amount (the SEEDS symbol is implicit in the model). -/
def check_asset (amount : Int) : Except String Unit :=
  if amount < 0 then .error "invalid asset" else .ok ()

/-- `proposals::update_min_stake`. -/
def update_min_stake (cfg : Config) (st : GovState) (prop_id : Nat) :
    Except String GovState :=
  match pfind st.props prop_id with
  | none => .error "proposal not found"
  | some p =>
    match min_stake cfg p.quantity p.fund with
    | .error e => .error e
    | .ok m =>
      match tfind st.minstakeTbl prop_id with
      | none => .ok { st with minstakeTbl := tinsert st.minstakeTbl prop_id m }
      | some _ => .ok { st with minstakeTbl := tupdate st.minstakeTbl prop_id m }

/-- `proposals::create_aux`.  `chain_accounts` models `is_account`.  The new
    proposal id is one past the last row's id. -/
def create_aux (cfg : Config) (now : Nat) (chain_accounts : List Name) (st : GovState)
    (creator recipient : Name) (quantity : Int) (fund campaignType : Name)
    (pay_percentages : List Nat) (maxPerInvite planted reward : Int) :
    Except String GovState :=
  match check_resident st creator with
  | .error e => .error e
  | .ok _ =>
  match (if campaignType = campaign_invite_type then .ok ()
         else check_percentages pay_percentages) with
  | .error e => .error e
  | .ok _ =>
  if get_type fund = "none" then .error "Invalid fund" else
  match (if fund = bankaccts_milestone then
           (if recipient = bankaccts_hyphabank then .ok ()
            else Except.error "Hypha proposals must go to the hypha bank")
         else if ¬ chain_accounts.contains recipient then
           Except.error "recipient is not a valid account"
         else if ¬ chain_accounts.contains fund then
           Except.error "fund is not a valid account"
         else .ok ()) with
  | .error e => .error e
  | .ok _ =>
  match check_asset quantity with
  | .error e => .error e
  | .ok _ =>
  let lastId := match st.props.getLast? with
    | some p => p.id
    | none => 0
  let propKey := lastId + 1
  let newProp : Proposal :=
    { id := propKey, creator := creator, recipient := recipient, quantity := quantity,
      staked := 0, executed := false, total := 0, favour := 0, against := 0,
      creation_date := now, status := status_open, stage := stage_staged, fund := fund,
      pay_percentages := pay_percentages, passed_cycle := 0, age := 0, current_payout := 0,
      campaign_type := campaignType, max_amount_per_invite := maxPerInvite,
      planted := planted, reward := reward, campaign_id := 0 }
  let st1 := { st with props := st.props ++ [newProp] }
  let lastprops1 :=
    match tfind st1.lastprops creator with
    | none => tinsert st1.lastprops creator propKey
    | some _ => tupdate st1.lastprops creator propKey
  let st2 := { st1 with lastprops := lastprops1 }
  update_min_stake cfg st2 propKey

/-- `proposals::createx`. -/
def createx (cfg : Config) (now : Nat) (chain_accounts : List Name) (st : GovState)
    (creator recipient : Name) (quantity : Int) (fund : Name)
    (pay_percentages : List Nat) : Except String GovState :=
  let ty :=
    if fund = bankaccts_alliances then alliance_type
    else if fund = bankaccts_milestone then milestone_type
    else campaign_funding_type
  create_aux cfg now chain_accounts st creator recipient quantity fund ty
    pay_percentages 0 0 0

/-- `proposals::create`: the fixed four-slice schedule. -/
def createProp (cfg : Config) (now : Nat) (chain_accounts : List Name) (st : GovState)
    (creator recipient : Name) (quantity : Int) (fund : Name) : Except String GovState :=
  createx cfg now chain_accounts st creator recipient quantity fund [25, 25, 25, 25]

/-- `proposals::createinvite`: the fixed invite schedule, skipping the
    percentage checks via the invite campaign type. -/
def createinvite (cfg : Config) (now : Nat) (chain_accounts : List Name) (st : GovState)
    (creator recipient : Name) (quantity : Int) (fund : Name)
    (maxPerInvite planted reward : Int) : Except String GovState :=
  if ¬ fund = bankaccts_campaigns then
    .error "the bank must be the campaigns bank for invite campaign proposals"
  else
  match check_asset maxPerInvite with
  | .error e => .error e
  | .ok _ =>
  match check_asset planted with
  | .error e => .error e
  | .ok _ =>
  match check_asset reward with
  | .error e => .error e
  | .ok _ =>
  if planted < (cfg "inv.min.plnt" : Int) then
    .error "the planted amount must be greater or equal than the minimum"
  else if (cfg "inv.max.rwrd" : Int) < reward then
    .error "the reward can not be greater than the maximum"
  else
    create_aux cfg now chain_accounts st creator recipient quantity fund
      campaign_invite_type [100, 0, 0, 0, 0, 0] maxPerInvite planted reward

/-- `proposals::updatex`.  For an invite-type proposal the submitted
    schedule is discarded and replaced by the fixed invite schedule before
    the checks run. -/
def updatex (st : GovState) (id : Nat)
    (title summary description image url : String) (pay_percentages : List Nat) :
    Except String GovState :=
  match pfind st.props id with
  | none => .error "Proposal not found"
  | some p =>
  if ¬ p.favour = 0 then
    .error "Prop has favor votes - cannot alter proposal once voting has started" else
  if ¬ p.against = 0 then
    .error "Prop has against votes - cannot alter proposal once voting has started" else
  let pp := if p.campaign_type = campaign_invite_type then [100, 0, 0, 0, 0, 0]
            else pay_percentages
  match check_percentages pp with
  | .error e => .error e
  | .ok _ =>
    .ok { st with props := pmodify st.props id (fun prop =>
      { prop with title := title, summary := summary, description := description,
                  image := image, url := url, pay_percentages := pp }) }

/-- `proposals::update`: re-submits the stored schedule. -/
def updateProp (st : GovState) (id : Nat)
    (title summary description image url : String) : Except String GovState :=
  match pfind st.props id with
  | none => .error "Proposal not found"
  | some p => updatex st id title summary description image url p.pay_percentages


/-! ### Generic lemmas about the table model -/

theorem tfind_nil {α : Type} (j : Name) : tfind ([] : List (Name × α)) j = none := rfl

theorem tfind_cons {α : Type} (e : Name × α) (l : List (Name × α)) (j : Name) :
    tfind (e :: l) j = if e.1 = j then some e.2 else tfind l j := by
  by_cases h : e.1 = j
  · simp only [tfind]
    rw [List.find?_cons_of_pos _ (by simp [h]), if_pos h]
    rfl
  · simp only [tfind]
    rw [List.find?_cons_of_neg _ (by simp [h]), if_neg h]

theorem tupdate_cons {α : Type} (e : Name × α) (l : List (Name × α)) (k : Name) (v : α) :
    tupdate (e :: l) k v = (if e.1 = k then (e.1, v) else e) :: tupdate l k v := by
  by_cases h : e.1 = k <;> simp [tupdate, h]

theorem tfind_tupdate {α : Type} (l : List (Name × α)) (k j : Name) (v : α) :
    tfind (tupdate l k v) j =
      if j = k then (tfind l k).map (fun _ => v) else tfind l j := by
  induction l with
  | nil => by_cases h : j = k <;> simp [tupdate, tfind_nil, h]
  | cons e rest ih =>
    rw [tupdate_cons]
    by_cases hek : e.1 = k
    · by_cases hjk : j = k
      · subst hjk; simp [hek, tfind_cons, ih]
      · have hkj : ¬ k = j := fun h => hjk h.symm
        simp [hek, tfind_cons, ih, hjk, hkj]
    · by_cases hjk : j = k
      · subst hjk
        have hekx : ¬ e.1 = j := hek
        simp [hek, tfind_cons, ih, hekx]
      · by_cases hej : e.1 = j
        · simp [hek, tfind_cons, hej, ih, hjk]
        · simp [hek, tfind_cons, hej, ih, hjk]

theorem tfind_append_right {α : Type} (l : List (Name × α)) (k : Name) (v : α)
    (h : tfind l k = none) : tfind (tinsert l k v) k = some v := by
  simp only [tfind] at h ⊢
  cases hf : l.find? (fun e => e.1 == k) with
  | some e => rw [hf] at h; simp at h
  | none => simp [tinsert, List.find?_append, hf, List.find?]

theorem pfind_cons (p : Proposal) (rest : List Proposal) (pid : Nat) :
    pfind (p :: rest) pid = if p.id = pid then some p else pfind rest pid := by
  by_cases h : p.id = pid
  · simp only [pfind]
    rw [List.find?_cons_of_pos _ (by simp [h]), if_pos h]
  · simp only [pfind]
    rw [List.find?_cons_of_neg _ (by simp [h]), if_neg h]

theorem pfind_pmodify (props : List Proposal) (pid : Nat) (p : Proposal)
    (f : Proposal → Proposal) (hf : pfind props pid = some p)
    (hid : ∀ q, (f q).id = q.id) :
    pfind (pmodify props pid f) pid = some (f p) := by
  induction props with
  | nil => simp [pfind] at hf
  | cons e rest ih =>
    rw [pfind_cons] at hf
    by_cases h : e.id = pid
    · rw [if_pos h] at hf
      injection hf with hep
      subst hep
      simp only [pmodify, show (e.id == pid) = true from by simp [h], if_true]
      rw [pfind_cons, if_pos (by rw [hid]; exact h)]
    · rw [if_neg h] at hf
      simp only [pmodify, show (e.id == pid) = false from by simp [h], Bool.false_eq_true, if_false]
      rw [pfind_cons, if_neg h]
      exact ih hf

theorem pfind_pmodify_ne (props : List Proposal) (pid pid2 : Nat)
    (f : Proposal → Proposal) (hne : ¬ pid2 = pid)
    (hid : ∀ q, (f q).id = q.id) :
    pfind (pmodify props pid f) pid2 = pfind props pid2 := by
  induction props with
  | nil => simp [pfind, pmodify]
  | cons e rest ih =>
    by_cases h : e.id = pid
    · simp only [pmodify, show (e.id == pid) = true from by simp [h], if_true]
      rw [pfind_cons, pfind_cons, hid]
      have h2 : ¬ e.id = pid2 := by omega
      rw [if_neg h2, if_neg h2]
    · simp only [pmodify, show (e.id == pid) = false from by simp [h], Bool.false_eq_true, if_false]
      rw [pfind_cons, pfind_cons]
      by_cases h3 : e.id = pid2
      · rw [if_pos h3, if_pos h3]
      · rw [if_neg h3, if_neg h3]
        exact ih

theorem vfind_cons (e : Nat × List VoteRow) (rest : List (Nat × List VoteRow)) (pid : Nat) :
    vfind (e :: rest) pid = if e.1 = pid then e.2 else vfind rest pid := by
  by_cases h : e.1 = pid
  · simp only [vfind]
    rw [List.find?_cons_of_pos _ (by simp [h]), if_pos h]
  · simp only [vfind]
    rw [List.find?_cons_of_neg _ (by simp [h]), if_neg h]

theorem vfind_vset (votes : List (Nat × List VoteRow)) (pid : Nat) (rows : List VoteRow)
    (pid2 : Nat) :
    vfind (vset votes pid rows) pid2 = if pid2 = pid then rows else vfind votes pid2 := by
  induction votes with
  | nil =>
    by_cases h : pid2 = pid
    · simp [vset, vfind_cons, vfind, h]
    · have h2 : ¬ pid = pid2 := fun hx => h hx.symm
      simp [vset, vfind_cons, vfind, h2, h]
  | cons e rest ih =>
    by_cases h : e.1 = pid
    · simp only [vset, show (e.1 == pid) = true from by simp [h], if_true]
      by_cases h2 : pid2 = pid
      · subst h2; simp [vfind_cons, h]
      · have h3 : ¬ e.1 = pid2 := by omega
        simp [vfind_cons, h3, h2]
    · simp only [vset, show (e.1 == pid) = false from by simp [h], Bool.false_eq_true, if_false]
      by_cases h3 : e.1 = pid2
      · have h2 : ¬ pid2 = pid := by omega
        simp [vfind_cons, h3, h2]
      · simp [vfind_cons, h3, ih]

/-- At most one vote row per account in one proposal's vote table. -/
def votesNodup (st : GovState) : Prop :=
  ∀ pid, ((vfind st.votes pid).map VoteRow.account).Nodup

def exceptIsError {α : Type} : Except String α → Bool
  | .error _ => true
  | .ok _ => false

def exceptIsOk {α : Type} : Except String α → Bool
  | .error _ => false
  | .ok _ => true

theorem voteRows_append_nodup (rows : List VoteRow) (row : VoteRow)
    (hfind : rows.find? (fun r => r.account == row.account) = none)
    (hnd : (rows.map VoteRow.account).Nodup) :
    ((rows ++ [row]).map VoteRow.account).Nodup := by
  rw [List.map_append, List.nodup_append]
  refine ⟨hnd, by simp, ?_⟩
  intro a ha hb
  simp only [List.map_cons, List.map_nil, List.mem_singleton] at hb
  subst hb
  rw [List.find?_eq_none] at hfind
  rcases List.mem_map.mp ha with ⟨r, hr, hra⟩
  exact hfind r hr (by simp [hra])

theorem eraseP_find_none (rows : List VoteRow) (v : Name)
    (hnd : (rows.map VoteRow.account).Nodup) :
    (rows.eraseP (fun r => r.account == v)).find? (fun r => r.account == v) = none := by
  induction rows with
  | nil => simp
  | cons r rest ih =>
    rw [List.map_cons, List.nodup_cons] at hnd
    by_cases h : r.account = v
    · rw [List.eraseP_cons_of_pos (by simp [h])]
      rw [List.find?_eq_none]
      intro x hx hxv
      apply hnd.1
      refine List.mem_map.mpr ⟨x, hx, ?_⟩
      have : x.account = v := by simpa using hxv
      rw [this, h]
    · rw [List.eraseP_cons_of_neg (by simp [h])]
      rw [List.find?_cons_of_neg _ (by simp [h])]
      exact ih hnd.2

theorem eraseP_map_nodup (rows : List VoteRow) (p : VoteRow → Bool)
    (hnd : (rows.map VoteRow.account).Nodup) :
    ((rows.eraseP p).map VoteRow.account).Nodup :=
  List.Nodup.sublist (List.Sublist.map _ (List.eraseP_sublist rows)) hnd

theorem foldl_add64_eq (l : List Nat) :
    ∀ acc, acc + l.sum < UINT64_MOD → l.foldl add64 acc = acc + l.sum := by
  induction l with
  | nil => intro acc _; simp
  | cons a rest ih =>
    intro acc h
    rw [List.sum_cons] at h
    rw [List.foldl_cons, add64_eq_of_lt (by omega), ih (acc + a) (by omega), List.sum_cons]
    omega

theorem sum64_eq_sum (l : List Nat) (h : l.sum < UINT64_MOD) : sum64 l = l.sum := by
  simpa using foldl_add64_eq l 0 (by simpa)

/-! ### Frame lemmas: which tables each helper leaves untouched -/

theorem voice_change_frame (st : GovState) (user : Name) (amount : Nat) (reduce : Bool)
    (scope : Name) (pct : ℚ) (st2 : GovState)
    (h : voice_change st user amount reduce scope = .ok (pct, st2)) :
    st2.votes = st.votes ∧ st2.props = st.props ∧ st2.delSelf = st.delSelf ∧
    st2.delAlliance = st.delAlliance ∧ st2.users = st.users := by
  unfold voice_change at h
  split at h
  · split at h
    · split at h
      · exact absurd h (by simp)
      · split at h
        · exact absurd h (by simp)
        · injection h with h1
          injection h1 with _ h2
          subst h2
          exact ⟨rfl, rfl, rfl, rfl, rfl⟩
    · split at h
      · split at h
        · injection h with h1
          injection h1 with _ h2
          subst h2
          exact ⟨rfl, rfl, rfl, rfl, rfl⟩
        · exact absurd h (by simp)
      · injection h with h1
        injection h1 with _ h2
        subst h2
        exact ⟨rfl, rfl, rfl, rfl, rfl⟩
    · injection h with h1
      injection h1 with _ h2
      subst h2
      exact ⟨rfl, rfl, rfl, rfl, rfl⟩
  · split at h
    · exact absurd h (by simp)
    · split at h
      · exact absurd h (by simp)
      · split at h
        · split at h
          · injection h with h1
            injection h1 with _ h2
            subst h2
            unfold setScopeVoices
            split <;> exact ⟨rfl, rfl, rfl, rfl, rfl⟩
          · exact absurd h (by simp)
        · injection h with h1
          injection h1 with _ h2
          subst h2
          unfold setScopeVoices
          split <;> exact ⟨rfl, rfl, rfl, rfl, rfl⟩

theorem vote_aux_error_of_existing_row (cfg : Config) (now : Nat) (st : GovState)
    (voter : Name) (id amount : Nat) (opt : Name) (is_new is_delegated : Bool) (vr : VoteRow)
    (hrow : (vfind st.votes id).find? (fun r => r.account == voter) = some vr) :
    exceptIsError (vote_aux cfg now st voter id amount opt is_new is_delegated) = true := by
  unfold vote_aux
  cases hc : check_citizen st voter with
  | error e => rfl
  | ok u =>
    cases hp : pfind st.props id with
    | none => rfl
    | some p =>
      simp only [hrow, Option.isSome_some, if_true]
      split
      · rfl
      · split
        · rfl
        · split
          · rfl
          · rfl

theorem increase_voice_cast_frame (st : GovState) (amount : Nat) (opt : Name) :
    (increase_voice_cast st amount opt).votes = st.votes ∧
    (increase_voice_cast st amount opt).delSelf = st.delSelf ∧
    (increase_voice_cast st amount opt).delAlliance = st.delAlliance := by
  unfold increase_voice_cast
  split <;> exact ⟨rfl, rfl, rfl⟩

theorem add_voted_proposal_frame (st : GovState) (pid : Nat) :
    (add_voted_proposal st pid).votes = st.votes ∧
    (add_voted_proposal st pid).delSelf = st.delSelf ∧
    (add_voted_proposal st pid).delAlliance = st.delAlliance := by
  unfold add_voted_proposal
  split <;> exact ⟨rfl, rfl, rfl⟩

theorem vote_participant_update_frame (st : GovState) (voter opt : Name) :
    (vote_participant_update st voter opt).votes = st.votes ∧
    (vote_participant_update st voter opt).delSelf = st.delSelf ∧
    (vote_participant_update st voter opt).delAlliance = st.delAlliance := by
  unfold vote_participant_update
  split <;> exact ⟨rfl, rfl, rfl⟩

theorem vote_actives_update_frame (st : GovState) (voter : Name) (now : Nat) (st5 : GovState)
    (h : vote_actives_update st voter now = .ok st5) :
    st5.votes = st.votes ∧ st5.delSelf = st.delSelf ∧ st5.delAlliance = st.delAlliance := by
  unfold vote_actives_update at h
  split at h
  · split at h
    · exact absurd h (by simp)
    · injection h with h1
      subst h1
      exact ⟨rfl, rfl, rfl⟩
  · injection h with h1
    subst h1
    exact ⟨rfl, rfl, rfl⟩

theorem send_mimic_congr (cfg : Config) (st1 st2 : GovState) (dlgte scope : Name)
    (pid : Nat) (pct : ℚ) (opt : Name)
    (hsame : delTable st1 scope = delTable st2 scope) :
    send_mimic_delegatee_vote cfg st1 dlgte scope pid pct opt =
    send_mimic_delegatee_vote cfg st2 dlgte scope pid pct opt := by
  unfold send_mimic_delegatee_vote delIndex
  rw [hsame]

theorem delTable_congr (st1 st2 : GovState) (scope : Name)
    (h1 : st1.delSelf = st2.delSelf) (h2 : st1.delAlliance = st2.delAlliance) :
    delTable st1 scope = delTable st2 scope := by
  unfold delTable
  split
  · exact h2
  · exact h1

theorem vote_aux_tail_shape (cfg : Config) (now : Nat) (st1 : GovState) (voter : Name)
    (id amount : Nat) (opt : Name) (is_new is_del : Bool) (scope : Name)
    (st' : GovState) (ds : List Deferred)
    (h : vote_aux_tail cfg now st1 voter id amount opt is_new is_del scope = .ok (st', ds)) :
    st'.votes = vset st1.votes id (vfind st1.votes id ++
      [{ account := voter, amount := amount, favour := opt == trust }]) ∧
    st'.delSelf = st1.delSelf ∧ st'.delAlliance = st1.delAlliance ∧
    ∃ pct, ds = send_mimic_delegatee_vote cfg st1 voter scope id pct opt := by
  unfold vote_aux_tail at h
  split at h
  · exact absurd h (by simp)
  · rename_i pu st2 hvc
    obtain ⟨hvotes2, hprops2, hdel2, hdelA2, husers2⟩ :=
      voice_change_frame _ voter amount true _ pu st2 hvc
    dsimp only at h
    split at h
    · exact absurd h (by simp)
    · split at h
      · exact absurd h (by simp)
      · rename_i st5 hact
        injection h with h1
        injection h1 with hA hB
        subst hA
        subst hB
        obtain ⟨hv4, hd4, ha4⟩ := vote_actives_update_frame _ voter now st5 hact
        refine ⟨?_, ?_, ?_, ?_⟩
        · rw [(increase_voice_cast_frame _ _ _).1, (add_voted_proposal_frame _ _).1, hv4]
          split
          · rw [(vote_participant_update_frame _ _ _).1]
            show vset st2.votes id (vfind st2.votes id ++ _) = _
            rw [hvotes2]
          · show vset st2.votes id (vfind st2.votes id ++ _) = _
            rw [hvotes2]
        · rw [(increase_voice_cast_frame _ _ _).2.1, (add_voted_proposal_frame _ _).2.1, hd4]
          split
          · rw [(vote_participant_update_frame _ _ _).2.1]
            exact hdel2
          · exact hdel2
        · rw [(increase_voice_cast_frame _ _ _).2.2, (add_voted_proposal_frame _ _).2.2, ha4]
          split
          · rw [(vote_participant_update_frame _ _ _).2.2]
            exact hdelA2
          · exact hdelA2
        · refine ⟨pu, ?_⟩
          exact send_mimic_congr _ _ _ _ _ _ _ _
            (delTable_congr _ _ _ hdel2 hdelA2)

theorem vote_aux_ok_shape (cfg : Config) (now : Nat) (st : GovState) (voter : Name)
    (id amount : Nat) (opt : Name) (is_new is_del : Bool) (st' : GovState)
    (ds : List Deferred) (p : Proposal)
    (hp : pfind st.props id = some p)
    (h : vote_aux cfg now st voter id amount opt is_new is_del = .ok (st', ds)) :
    (vfind st.votes id).find? (fun r => r.account == voter) = none ∧
    st'.votes = vset st.votes id (vfind st.votes id ++
      [{ account := voter, amount := amount, favour := opt == trust }]) ∧
    st'.delSelf = st.delSelf ∧ st'.delAlliance = st.delAlliance ∧
    ∃ pct, ds = send_mimic_delegatee_vote cfg st voter
        (if get_type p.fund = alliance_type then alliance_type else self_account) id pct opt := by
  unfold vote_aux at h
  cases hc : check_citizen st voter with
  | error e => rw [hc] at h; exact absurd h (by simp)
  | ok u =>
    rw [hc, hp] at h
    dsimp only at h
    split at h
    · exact absurd h (by simp)
    · split at h
      · exact absurd h (by simp)
      · split at h
        · exact absurd h (by simp)
        · split at h
          · exact absurd h (by simp)
          · rename_i hrowg
            have hrow0 : (vfind st.votes id).find? (fun r => r.account == voter) = none := by
              cases hfo : (vfind st.votes id).find? (fun r => r.account == voter) with
              | none => rfl
              | some v => rw [hfo] at hrowg; simp at hrowg
            split at h
            · exact absurd h (by simp)
            · obtain ⟨hv, hd, ha, pct, hds⟩ := vote_aux_tail_shape _ _ _ _ _ _ _ _ _ _ _ _ h
              have hst1v : ∀ st1x : GovState, st1x.votes = st.votes →
                  vset st1x.votes id (vfind st1x.votes id ++
                    [{ account := voter, amount := amount, favour := opt == trust }]) =
                  vset st.votes id (vfind st.votes id ++
                    [{ account := voter, amount := amount, favour := opt == trust }]) := by
                intro st1x hx
                rw [hx]
              refine ⟨hrow0, ?_, ?_, ?_, ?_⟩
              · rw [hv]
                apply hst1v
                split <;> first | rfl | (split <;> rfl)
              · rw [hd]
                split <;> first | rfl | (split <;> rfl)
              · rw [ha]
                split <;> first | rfl | (split <;> rfl)
              · refine ⟨pct, ?_⟩
                rw [hds]
                apply send_mimic_congr
                apply delTable_congr
                · split <;> first | rfl | (split <;> rfl)
                · split <;> first | rfl | (split <;> rfl)

theorem vote_aux_error_of_no_prop (cfg : Config) (now : Nat) (st : GovState)
    (voter : Name) (id amount : Nat) (opt : Name) (is_new is_del : Bool)
    (hp : pfind st.props id = none) :
    exceptIsError (vote_aux cfg now st voter id amount opt is_new is_del) = true := by
  unfold vote_aux
  cases hc : check_citizen st voter with
  | error e => rfl
  | ok u => rw [hp]; rfl

theorem vote_aux_nodup (cfg : Config) (now : Nat) (st : GovState) (voter : Name)
    (id amount : Nat) (opt : Name) (is_new is_del : Bool) (st' : GovState)
    (ds : List Deferred) (hnd : votesNodup st)
    (h : vote_aux cfg now st voter id amount opt is_new is_del = .ok (st', ds)) :
    votesNodup st' := by
  cases hp : pfind st.props id with
  | none =>
    have := vote_aux_error_of_no_prop cfg now st voter id amount opt is_new is_del hp
    rw [h] at this
    simp [exceptIsError] at this
  | some p =>
    obtain ⟨hguard, hv, _, _, _⟩ :=
      vote_aux_ok_shape cfg now st voter id amount opt is_new is_del st' ds p hp h
    intro pid
    rw [hv, vfind_vset]
    by_cases hpid : pid = id
    · rw [if_pos hpid]
      exact voteRows_append_nodup _ _ hguard (hnd id)
    · rw [if_neg hpid]
      exact hnd pid

theorem revert_vote_nodup (st : GovState) (voter : Name) (id : Nat) (reverted : Bool)
    (st1 : GovState) (hnd : votesNodup st)
    (h : revert_vote st voter id = .ok (reverted, st1)) : votesNodup st1 := by
  unfold revert_vote at h
  cases hp : pfind st.props id with
  | none => rw [hp] at h; exact absurd h (by simp)
  | some p =>
    rw [hp] at h
    dsimp only at h
    split at h
    · injection h with h1
      injection h1 with _ h2
      subst h2
      exact hnd
    · split at h
      · exact absurd h (by simp)
      · split at h
        · exact absurd h (by simp)
        · injection h with h1
          injection h1 with _ h2
          subst h2
          intro pid
          show ((vfind (vset st.votes id _) pid).map VoteRow.account).Nodup
          rw [vfind_vset]
          by_cases hpid : pid = id
          · rw [if_pos hpid]
            exact eraseP_map_nodup _ _ (hnd id)
          · rw [if_neg hpid]
            exact hnd pid

theorem revert_vote_ok_shape (st : GovState) (voter : Name) (id : Nat) (p : Proposal)
    (vr : VoteRow)
    (hp : pfind st.props id = some p)
    (hrow : (vfind st.votes id).find? (fun r => r.account == voter) = some vr)
    (hstatus : p.status = status_evaluate)
    (hfav : vr.favour = true) (hamt : 0 < vr.amount) :
    revert_vote st voter id = .ok (true,
      { st with
          props := pmodify st.props id (fun prop =>
            { prop with total := sub64 prop.total vr.amount,
                        favour := sub64 prop.favour vr.amount }),
          votes := vset st.votes id
            ((vfind st.votes id).eraseP (fun r => r.account == voter)) }) := by
  unfold revert_vote
  rw [hp]
  dsimp only
  rw [hrow]
  dsimp only
  rw [if_neg (by simp [hstatus]), if_neg (by simp [hfav, hamt])]

theorem mimic_send_for_voting_eq (st : GovState) (scope : Name) (pid : Nat) (pct : ℚ)
    (opt : Name) (acc : List Deferred) (e : DelegateRow) (bal : Nat)
    (hopt : opt = trust ∨ opt = distrust)
    (hfo : tfind (scopeVoices st scope) e.delegator = some bal) :
    mimic_send_for st scope pid pct opt acc e =
      .ok (acc ++ [Deferred.voteOnBehalf e.delegator pid
                     (ratFloorNat ((bal : ℚ) * pct)) opt]) := by
  unfold mimic_send_for
  rw [if_pos hopt, hfo]

theorem mimic_fold_voting (st : GovState) (scope : Name) (pid : Nat) (pct : ℚ)
    (opt : Name) (hopt : opt = trust ∨ opt = distrust) :
    ∀ (chunk : List DelegateRow) (acc : List Deferred),
    (∀ e ∈ chunk, (tfind (scopeVoices st scope) e.delegator).isSome = true) →
    chunk.foldlM (mimic_send_for st scope pid pct opt) acc =
      .ok (acc ++ chunk.map (fun e => Deferred.voteOnBehalf e.delegator pid
        (ratFloorNat ((tget (scopeVoices st scope) e.delegator : ℚ) * pct)) opt)) := by
  intro chunk
  induction chunk with
  | nil => intro acc _; simp; rfl
  | cons e rest ih =>
    intro acc hbal
    have hb := hbal e (by simp)
    cases hfo : tfind (scopeVoices st scope) e.delegator with
    | none => rw [hfo] at hb; simp at hb
    | some bal =>
      rw [List.foldlM_cons, mimic_send_for_voting_eq st scope pid pct opt acc e bal hopt hfo]
      show Except.bind (Except.ok _) _ = _
      rw [show ∀ (x : List Deferred) (f : List Deferred → Except String (List Deferred)),
            Except.bind (Except.ok x) f = f x from fun _ _ => rfl]
      rw [ih _ (fun x hx => hbal x (by simp [hx]))]
      simp [tget, hfo]

theorem mimic_send_for_abstain_eq (st : GovState) (scope : Name) (pid : Nat) (pct : ℚ)
    (acc : List Deferred) (e : DelegateRow) :
    mimic_send_for st scope pid pct abstain acc e =
      .ok (acc ++ [Deferred.voteOnBehalf e.delegator pid 0 abstain]) := by
  unfold mimic_send_for
  rw [if_neg (by simp [trust, distrust, abstain]), if_pos rfl]

theorem mimic_fold_abstain (st : GovState) (scope : Name) (pid : Nat) (pct : ℚ) :
    ∀ (chunk : List DelegateRow) (acc : List Deferred),
    chunk.foldlM (mimic_send_for st scope pid pct abstain) acc =
      .ok (acc ++ chunk.map (fun e => Deferred.voteOnBehalf e.delegator pid 0 abstain)) := by
  intro chunk
  induction chunk with
  | nil => intro acc; simp; rfl
  | cons e rest ih =>
    intro acc
    rw [List.foldlM_cons, mimic_send_for_abstain_eq]
    show Except.bind (Except.ok _) _ = _
    rw [show ∀ (x : List Deferred) (f : List Deferred → Except String (List Deferred)),
          Except.bind (Except.ok x) f = f x from fun _ _ => rfl]
    rw [ih]
    simp

theorem size_change_t_nonneg_ok (sizes : List (Name × Nat)) (nm : Name) (delta : Int)
    (h : 0 ≤ delta) : ∃ l, size_change_t sizes nm delta = .ok l := by
  unfold size_change_t
  cases tfind sizes nm with
  | none => exact ⟨_, by rw [if_neg (by omega)]⟩
  | some sz => exact ⟨_, rfl⟩

/-! ### Concrete fixtures used by the scenario parts of the claims -/

def cfgA : Config := fun k =>
  if k = "propmajority" then 80
  else if k = "quorum.base" then 40
  else if k = "quor.min.pct" then 10
  else if k = "quor.max.pct" then 90
  else if k = "prop.cmp.pct" then 50000
  else if k = "prop.cmp.min" then 100
  else if k = "prop.cmp.cap" then 2000
  else if k = "batchsize" then 100
  else if k = "dlegate.dpth" then 10
  else if k = "vdecayprntge" then 10
  else if k = "decaytime" then 50
  else if k = "propdecaysec" then 100
  else 0

def csA : CycleStats :=
  { propcycle := 5, num_proposals := 3, total_eligible_voters := 7,
    quorum_votes_needed := 1000, quorum_vote_base := 10000 }

def csA4 : CycleStats :=
  { propcycle := 5, num_proposals := 4, total_eligible_voters := 7,
    quorum_votes_needed := 1000, quorum_vote_base := 10000, active_props := [9] }

/-! ### C5 -/

/-- C5: for every number of active proposals `n ≥ 1` the per-proposal quorum
    percentage is `clamp(base_quorum / n, min_pct, max_pct)` with integer
    division, and the quorum votes needed are the quorum base times that
    percentage over 100 (floored on the conversion to `uint64_t`).  In the
    scenario base_quorum_pct=40, n=4, min_pct=10, max_pct=90 the percentage
    is 10; with quorum_base=10000 the requirement is 1000 votes, which
    favour=1000 meets and favour=999 misses while status is open. -/
theorem get_quorum_clamp_and_votes_needed :
    (∀ (cfg : Config) (n : Nat),
      get_quorum cfg (n + 1) =
        specClamp (cfg "quorum.base" / (n + 1)) (cfg "quor.min.pct") (cfg "quor.max.pct")) ∧
    (∀ (cfg : Config) (pid : Nat) (item : CycleStats),
      ∃ item',
        update_cycle_stats_from_proposal cfg pid stage_active (some item) = .ok (some item') ∧
        item'.num_proposals = item.num_proposals + 1 ∧
        item'.quorum_votes_needed =
          ratFloorNat ((item.quorum_vote_base : ℚ) *
            ((get_quorum cfg (item.num_proposals + 1) : ℚ) / 100))) ∧
    get_quorum cfgA 4 = 10 ∧
    (∃ item',
      update_cycle_stats_from_proposal cfgA 9 stage_active (some csA) = .ok (some item') ∧
      item'.quorum_votes_needed = 1000) ∧
    eval_valid_quorum 1000 { id := 1, status := status_open, favour := 1000 } = true ∧
    eval_valid_quorum 1000 { id := 1, status := status_open, favour := 999 } = false := by
  refine ⟨?_, ?_, ?_, ?_, ?_, ?_⟩
  · intro cfg n
    simp [get_quorum, specClamp]
  · intro cfg pid item
    unfold update_cycle_stats_from_proposal
    dsimp only
    rw [if_pos (rfl : stage_active = stage_active)]
    exact ⟨_, rfl, rfl, rfl⟩
  · decide
  · unfold update_cycle_stats_from_proposal
    dsimp only
    rw [if_pos (rfl : stage_active = stage_active)]
    refine ⟨_, rfl, ?_⟩
    show ratFloorNat ((csA.quorum_vote_base : ℚ) * ((get_quorum cfgA (csA.num_proposals + 1) : ℚ) / 100)) = 1000
    simp +decide [csA, get_quorum, cfgA]
    norm_num [ratFloorNat]
    decide
  · decide
  · decide

/-! ### C8 -/

/-- C8: for a payout schedule of length L, the payout for cycle age equals
    `floor(pay_percentages[age] / 100 * total_quantity)` for every
    `age < L - 1`, and equals `total_quantity - current_payout` for
    `age = L - 1` (the last slice absorbs the accumulated rounding). -/
theorem get_payout_amount_schedule (pp : List Nat) (age : Nat) (total current : Int) :
    (age < pp.length - 1 →
      get_payout_amount pp age total current =
        ⌊((pp.getD age 0 : ℚ) / 100) * (total : ℚ)⌋) ∧
    (¬ pp = [] → age = pp.length - 1 →
      get_payout_amount pp age total current = total - current) := by
  constructor
  · intro h
    unfold get_payout_amount
    rw [if_neg (by omega), if_neg (by omega)]
  · intro hne hage
    have hlen : 1 ≤ pp.length := by
      cases pp with
      | nil => exact absurd rfl hne
      | cons a l => simp
    unfold get_payout_amount
    rw [if_neg (by omega), if_pos hage]

/-- Witness for C8 at the schedule [25, 25, 25, 25], total 10000. -/
theorem get_payout_amount_schedule_witness :
    (1 < ([25, 25, 25, 25] : List Nat).length - 1 ∧
      get_payout_amount [25, 25, 25, 25] 1 10000 0 =
        ⌊((([25, 25, 25, 25] : List Nat).getD 1 0 : ℚ) / 100) * (10000 : ℚ)⌋) ∧
    (¬ ([25, 25, 25, 25] : List Nat) = [] ∧
      get_payout_amount [25, 25, 25, 25] 3 10000 7500 = 10000 - 7500) :=
  ⟨⟨by decide, (get_payout_amount_schedule [25, 25, 25, 25] 1 10000 0).1 (by decide)⟩,
   ⟨by decide, (get_payout_amount_schedule [25, 25, 25, 25] 3 10000 7500).2 (by decide) (by decide)⟩⟩

/-! ### C2 -/

def stagedProp (stk : Int) : Proposal :=
  { id := 1, creator := "alice", quantity := 10000, staked := stk, status := status_open,
    stage := stage_staged, fund := bankaccts_campaigns, pay_percentages := [25, 25, 25, 25],
    campaign_type := campaign_funding_type }

theorem min_stake_cfgA_500 : min_stake cfgA 10000 bankaccts_campaigns = .ok 500 := by
  unfold min_stake
  rw [if_pos rfl]
  dsimp only
  have : ratFloorNat ((cfgA "prop.cmp.pct" : ℚ) / 10000 * ((10000 : Int) : ℚ) / 100) = 500 := by
    simp +decide [cfgA]
    norm_num [ratFloorNat]
    decide
  rw [this]
  simp +decide [cfgA]

/-- The staged-stage branch of `evalproposal`: a staged proposal becomes
    active exactly when its stake reaches the fund's minimum stake. -/
theorem evalproposal_staged_promotion (cfg : Config) (pid prop_cycle : Nat)
    (csEval : Option CycleStats) (cs0 : CycleStats) (sizes : List (Name × Nat))
    (props : List Proposal) (p : Proposal) (m : Nat)
    (hfind : pfind props pid = some p)
    (hstage : p.stage = stage_staged)
    (hm : min_stake cfg p.quantity p.fund = .ok m)
    (hel : ¬ (eval_stats csEval sizes).2.1 = 0) :
    ∃ props1 cur1 sizes1,
      evalproposal cfg pid prop_cycle csEval (some cs0) sizes props = .ok (props1, cur1, sizes1) ∧
      ∃ q1, pfind props1 pid = some q1 ∧
        (q1.stage = stage_active ↔ (m : Int) ≤ p.staked) ∧
        ((m : Int) ≤ p.staked →
          props1 = pmodify props pid (fun prop => { prop with stage := stage_active })) ∧
        (¬ (m : Int) ≤ p.staked → props1 = props) := by
  unfold evalproposal
  dsimp only
  rw [if_neg hel, hfind]
  dsimp only
  rw [if_neg (by rw [hstage]; decide), if_pos hstage]
  unfold is_enough_stake
  rw [hm]
  rw [show Except.map (fun mm : Nat => decide ((mm : Int) ≤ p.staked)) (Except.ok m) =
        Except.ok (decide ((m : Int) ≤ p.staked)) from rfl]
  dsimp only
  simp only [decide_eq_true_eq]
  by_cases hst : (m : Int) ≤ p.staked
  · rw [if_pos hst]
    obtain ⟨sz1, hsz⟩ := size_change_t_nonneg_ok sizes prop_active_size 1 (by omega)
    rw [hsz]
    unfold update_cycle_stats_from_proposal
    dsimp only
    rw [if_pos (rfl : stage_active = stage_active)]
    refine ⟨_, _, _, rfl, ?_⟩
    refine ⟨_, pfind_pmodify props pid p _ hfind (fun q => rfl), ?_, ?_, ?_⟩
    · simp [hst]
    · intro _
      rfl
    · intro hc
      exact absurd hst hc
  · rw [if_neg hst]
    refine ⟨props, some cs0, sizes, rfl, p, hfind, ?_, ?_, ?_⟩
    · constructor
      · intro hs
        rw [hstage] at hs
        exact absurd hs (by decide)
      · intro hc
        exact absurd hc hst
    · intro hc
      exact absurd hc hst
    · intro _
      rfl

/-- C2: for every recognized fund category `min_stake(quantity, fund)` is
    `min(configured cap, max(configured minimum, the fund's configured
    percentage of quantity))`; at a cycle tick a proposal in stage Staged
    becomes Active exactly when its accumulated stake reaches this minimum.
    In the scenario quantity=10000, percentage 5, minimum 100, cap 2000 the
    minimum stake is 500: staked 499 stays Staged, staked 500 is promoted. -/
theorem min_stake_clamp_and_staged_promotion :
    (∀ (cfg : Config) (q : Int),
      min_stake cfg q bankaccts_campaigns = .ok (min (cfg "prop.cmp.cap")
        (max (cfg "prop.cmp.min")
          (ratFloorNat (((cfg "prop.cmp.pct" : ℚ) / 10000) * (q : ℚ) / 100)))) ∧
      min_stake cfg q bankaccts_alliances = .ok (min (cfg "prop.al.cap")
        (max (cfg "prop.al.min")
          (ratFloorNat (((cfg "prop.al.pct" : ℚ) / 10000) * (q : ℚ) / 100)))) ∧
      min_stake cfg q bankaccts_milestone = .ok (min (cfg "propminstake")
        (max (cfg "propminstake")
          (ratFloorNat ((cfg "propstakeper" : ℚ) * (q : ℚ) / 100))))) ∧
    (∀ (cfg : Config) (pid prop_cycle : Nat) (csEval : Option CycleStats) (cs0 : CycleStats)
       (sizes : List (Name × Nat)) (props : List Proposal) (p : Proposal) (m : Nat),
      pfind props pid = some p →
      p.stage = stage_staged →
      min_stake cfg p.quantity p.fund = .ok m →
      ¬ (eval_stats csEval sizes).2.1 = 0 →
      ∃ props1 cur1 sizes1,
        evalproposal cfg pid prop_cycle csEval (some cs0) sizes props =
          .ok (props1, cur1, sizes1) ∧
        ∃ q1, pfind props1 pid = some q1 ∧
          (q1.stage = stage_active ↔ (m : Int) ≤ p.staked)) ∧
    min_stake cfgA 10000 bankaccts_campaigns = .ok 500 ∧
    (∃ out, evalproposal cfgA 1 5 (some csA) (some csA) [] [stagedProp 499] = .ok out ∧
       out.1 = [stagedProp 499]) ∧
    (∃ out, evalproposal cfgA 1 5 (some csA) (some csA) [] [stagedProp 500] = .ok out ∧
       out.1.map (fun pr => pr.stage) = [stage_active]) := by
  refine ⟨?_, ?_, min_stake_cfgA_500, ?_, ?_⟩
  · intro cfg q
    refine ⟨?_, ?_, ?_⟩
    · unfold min_stake
      rw [if_pos rfl]
    · unfold min_stake
      rw [if_neg (by decide), if_pos rfl]
    · unfold min_stake
      rw [if_neg (by decide), if_neg (by decide), if_pos rfl]
  · intro cfg pid prop_cycle csEval cs0 sizes props p m hfind hstage hm hel
    obtain ⟨props1, cur1, sizes1, heval, q1, hq, hiff, _, _⟩ :=
      evalproposal_staged_promotion cfg pid prop_cycle csEval cs0 sizes props p m
        hfind hstage hm hel
    exact ⟨props1, cur1, sizes1, heval, q1, hq, hiff⟩
  · obtain ⟨props1, cur1, sizes1, heval, q1, hq, hiff, hpos, hneg⟩ :=
      evalproposal_staged_promotion cfgA 1 5 (some csA) csA [] [stagedProp 499]
        (stagedProp 499) 500 (by decide) rfl min_stake_cfgA_500 (by decide)
    refine ⟨(props1, cur1, sizes1), heval, ?_⟩
    show props1 = [stagedProp 499]
    exact hneg (by decide)
  · obtain ⟨props1, cur1, sizes1, heval, q1, hq, hiff, hpos, hneg⟩ :=
      evalproposal_staged_promotion cfgA 1 5 (some csA) csA [] [stagedProp 500]
        (stagedProp 500) 500 (by decide) rfl min_stake_cfgA_500 (by decide)
    refine ⟨(props1, cur1, sizes1), heval, ?_⟩
    show props1.map (fun pr => pr.stage) = [stage_active]
    rw [hpos (by decide)]
    decide

/-- Witness for C2: the promotion conjunct applied at the concrete
    staked-500 proposal. -/
theorem min_stake_clamp_and_staged_promotion_witness :
    pfind [stagedProp 500] 1 = some (stagedProp 500) ∧
    (stagedProp 500).stage = stage_staged ∧
    ¬ (eval_stats (some csA) []).2.1 = 0 ∧
    ∃ props1 cur1 sizes1,
      evalproposal cfgA 1 5 (some csA) (some csA) [] [stagedProp 500] =
        .ok (props1, cur1, sizes1) ∧
      ∃ q1, pfind props1 1 = some q1 ∧
        (q1.stage = stage_active ↔ ((500 : Nat) : Int) ≤ (stagedProp 500).staked) :=
  ⟨by decide, rfl, by decide,
    min_stake_clamp_and_staged_promotion.2.1 cfgA 1 5 (some csA) csA [] [stagedProp 500]
      (stagedProp 500) 500 (by decide) rfl min_stake_cfgA_500 (by decide)⟩

/-! ### C1 -/

def activeProp (f a : Nat) (stt : Name) : Proposal :=
  { id := 2, creator := "zed", quantity := 10000, status := stt, stage := stage_active,
    fund := bankaccts_campaigns, pay_percentages := [25, 25, 25, 25], favour := f,
    against := a, campaign_type := campaign_funding_type }

theorem eval_passed_iff (pm : Nat) (p : Proposal) :
    eval_passed pm p = true ↔
      (0 < p.favour ∧
       ((pm : ℚ) / 100) ≤ (p.favour : ℚ) / ((p.favour : ℚ) + (p.against : ℚ))) := by
  unfold eval_passed
  rw [Bool.and_eq_true]
  simp only [decide_eq_true_eq]
  constructor
  · rintro ⟨hf, hm⟩
    refine ⟨hf, ?_⟩
    have hfq : (0 : ℚ) < (p.favour : ℚ) := by exact_mod_cast hf
    have hs : (0 : ℚ) < (p.favour : ℚ) + (p.against : ℚ) := by positivity
    rw [le_div_iff hs]
    push_cast at hm
    linarith
  · rintro ⟨hf, hd⟩
    refine ⟨hf, ?_⟩
    have hfq : (0 : ℚ) < (p.favour : ℚ) := by exact_mod_cast hf
    have hs : (0 : ℚ) < (p.favour : ℚ) + (p.against : ℚ) := by positivity
    rw [le_div_iff hs] at hd
    push_cast
    linarith

theorem eval_valid_quorum_iff (qvn : Nat) (p : Proposal)
    (hstatus : p.status = status_open ∨ p.status = status_evaluate) :
    eval_valid_quorum qvn p = true ↔ (p.status = status_open → qvn ≤ p.favour) := by
  cases hstatus with
  | inl h =>
    unfold eval_valid_quorum
    rw [if_neg (by rw [h]; decide)]
    simp [h]
  | inr h =>
    unfold eval_valid_quorum
    rw [if_pos h]
    constructor
    · intro _ hopen
      rw [hopen] at h
      exact absurd h (by decide)
    · intro _
      rfl

theorem eval_pass_and_quorum_iff (pm qvn : Nat) (p : Proposal)
    (hstatus : p.status = status_open ∨ p.status = status_evaluate) :
    (eval_passed pm p && eval_valid_quorum qvn p) = true ↔
      (0 < p.favour ∧
       ((pm : ℚ) / 100) ≤ (p.favour : ℚ) / ((p.favour : ℚ) + (p.against : ℚ)) ∧
       (p.status = status_open → qvn ≤ p.favour)) := by
  rw [Bool.and_eq_true, eval_passed_iff, eval_valid_quorum_iff qvn p hstatus]
  constructor
  · rintro ⟨⟨h1, h2⟩, h3⟩
    exact ⟨h1, h2, h3⟩
  · rintro ⟨h1, h2, h3⟩
    exact ⟨⟨h1, h2⟩, h3⟩

/-- C1: when a cycle tick evaluates a stage-Active proposal, it passes
    exactly when favour > 0, favour/(favour+against) reaches the configured
    majority fraction, and — only while status is Open — favour reaches the
    cycle's quorum_votes_needed; while status is Evaluate the quorum
    condition is treated as satisfied.  A proposal failing the test ends
    with status Rejected and stage Done, and a passing one does not. -/
theorem evalproposal_active_pass_iff (cfg : Config) (pid prop_cycle : Nat)
    (csEval : Option CycleStats) (cs0 : CycleStats) (sizes : List (Name × Nat))
    (props : List Proposal) (p : Proposal) (szv : Nat)
    (hfind : pfind props pid = some p)
    (hstage : p.stage = stage_active)
    (hstatus : p.status = status_open ∨ p.status = status_evaluate)
    (hel : ¬ (eval_stats csEval sizes).2.1 = 0)
    (hsz : tfind sizes prop_active_size = some szv) :
    ∃ out q,
      evalproposal cfg pid prop_cycle csEval (some cs0) sizes props = .ok out ∧
      pfind out.1 pid = some q ∧
      ((q.status = status_rejected ∧ q.stage = stage_done) ↔
        ¬ (0 < p.favour ∧
           ((cfg "propmajority" : ℚ) / 100) ≤
             (p.favour : ℚ) / ((p.favour : ℚ) + (p.against : ℚ)) ∧
           (p.status = status_open → (eval_stats csEval sizes).2.2 ≤ p.favour))) := by
  have hspec := eval_pass_and_quorum_iff (cfg "propmajority") (eval_stats csEval sizes).2.2
    p hstatus
  obtain ⟨szl, hszok⟩ : ∃ l, size_change_t sizes prop_active_size (-1) = .ok l := by
    unfold size_change_t
    rw [hsz]
    exact ⟨_, rfl⟩
  unfold evalproposal
  dsimp only
  rw [if_neg hel, hfind]
  dsimp only
  rw [if_pos hstage]
  by_cases hpass :
      (eval_passed (cfg "propmajority") p &&
        eval_valid_quorum (eval_stats csEval sizes).2.2 p) = true
  · rw [if_pos hpass]
    cases hstatus with
    | inl hopen =>
      rw [if_pos hopen]
      unfold update_cycle_stats_from_proposal
      dsimp only
      rw [if_neg (by decide), if_pos rfl, hszok]
      refine ⟨_, _, rfl, pfind_pmodify props pid p _ hfind (fun q => rfl), ?_⟩
      constructor
      · rintro ⟨h1, _⟩
        dsimp only at h1
        exact absurd h1 (by decide)
      · intro hns
        exact absurd (hspec.mp hpass) hns
    | inr heval =>
      rw [if_neg (by rw [heval]; decide)]
      by_cases hage : p.age + 1 = p.pay_percentages.length - 1
      · rw [if_pos hage, hszok]
        refine ⟨_, _, rfl, pfind_pmodify props pid p _ hfind (fun q => rfl), ?_⟩
        constructor
        · rintro ⟨h1, _⟩
          dsimp only at h1
          exact absurd h1 (by decide)
        · intro hns
          exact absurd (hspec.mp hpass) hns
      · rw [if_neg hage]
        unfold update_cycle_stats_from_proposal
        dsimp only
        rw [if_neg (by decide), if_pos rfl, hszok]
        refine ⟨_, _, rfl, pfind_pmodify props pid p _ hfind (fun q => rfl), ?_⟩
        constructor
        · rintro ⟨h1, _⟩
          dsimp only at h1
          rw [heval] at h1
          exact absurd h1 (by decide)
        · intro hns
          exact absurd (hspec.mp hpass) hns
  · rw [if_neg hpass, hszok]
    refine ⟨_, _, rfl, pfind_pmodify props pid p _ hfind (fun q => rfl), ?_⟩
    constructor
    · intro _
      intro hs
      exact hpass (hspec.mpr hs)
    · intro _
      exact ⟨rfl, rfl⟩

/-- Witness for C1: a passing open proposal (favour 4000 against 1000,
    majority 80, quorum 1000) is not rejected. -/
theorem evalproposal_active_pass_iff_witness :
    pfind [activeProp 4000 1000 status_open] 2 = some (activeProp 4000 1000 status_open) ∧
    (activeProp 4000 1000 status_open).stage = stage_active ∧
    ¬ (eval_stats (some csA) [(prop_active_size, 3)]).2.1 = 0 ∧
    tfind [(prop_active_size, 3)] prop_active_size = some 3 ∧
    ∃ out q,
      evalproposal cfgA 2 5 (some csA) (some csA) [(prop_active_size, 3)]
        [activeProp 4000 1000 status_open] = .ok out ∧
      pfind out.1 2 = some q ∧
      ((q.status = status_rejected ∧ q.stage = stage_done) ↔
        ¬ (0 < (activeProp 4000 1000 status_open).favour ∧
           ((cfgA "propmajority" : ℚ) / 100) ≤
             ((activeProp 4000 1000 status_open).favour : ℚ) /
               (((activeProp 4000 1000 status_open).favour : ℚ) +
                ((activeProp 4000 1000 status_open).against : ℚ)) ∧
           ((activeProp 4000 1000 status_open).status = status_open →
             (eval_stats (some csA) [(prop_active_size, 3)]).2.2 ≤
               (activeProp 4000 1000 status_open).favour))) :=
  ⟨by decide, rfl, by decide, by decide,
    evalproposal_active_pass_iff cfgA 2 5 (some csA) csA [(prop_active_size, 3)]
      [activeProp 4000 1000 status_open] (activeProp 4000 1000 status_open) 3
      (by decide) rfl (Or.inl rfl) (by decide) (by decide)⟩

/-! ### C7 -/

def stDel0 : GovState := { voiceSelf := [("zz", 0)] }

/-- Counterexample for C7: `delegate` succeeds for a delegator whose voice
    row in the scope has balance zero, so "holds nonzero voice" is not
    required — only the existence of a voice row is checked. -/
theorem delegate_zero_voice_succeeds :
    tfind stDel0.voiceSelf "zz" = some 0 ∧
    exceptIsOk (delegateAct cfgA 5 stDel0 "zz" "bob" self_account) = true := by
  constructor
  · decide
  · decide

theorem find_upsert_existing (edges : List DelegateRow) (d dlgte : Name) (now : Nat)
    (e0 : DelegateRow)
    (hfind : edges.find? (fun r => r.delegator == d) = some e0) :
    (edges.map (fun e => if e.delegator == d then
        { e with delegatee := dlgte, weight := 1, timestamp := now } else e)).find?
      (fun r => r.delegator == d) =
      some { e0 with delegatee := dlgte, weight := 1, timestamp := now } := by
  induction edges with
  | nil => simp at hfind
  | cons x xs ih =>
    by_cases hx : x.delegator = d
    · rw [List.find?_cons_of_pos _ (by simp [hx])] at hfind
      injection hfind with he
      subst he
      simp only [List.map_cons, show (x.delegator == d) = true from by simp [hx], if_true]
      rw [List.find?_cons_of_pos _ (by simp [hx])]
    · rw [List.find?_cons_of_neg _ (by simp [hx])] at hfind
      simp only [List.map_cons, show (x.delegator == d) = false from by simp [hx],
        Bool.false_eq_true, if_false]
      rw [List.find?_cons_of_neg _ (by simp [hx])]
      exact ih hfind

theorem find_insertEdgeSorted (edges : List DelegateRow) (e : DelegateRow)
    (hnone : edges.find? (fun r => r.delegator == e.delegator) = none) :
    (insertEdgeSorted edges e).find? (fun r => r.delegator == e.delegator) = some e := by
  induction edges with
  | nil =>
    unfold insertEdgeSorted
    rw [List.find?_cons_of_pos _ (by simp)]
  | cons x xs ih =>
    rw [List.find?_cons] at hnone
    unfold insertEdgeSorted
    split
    · rw [List.find?_cons_of_pos _ (by simp)]
    · have hx : (x.delegator == e.delegator) = false := by
        cases hxe : x.delegator == e.delegator with
        | true => rw [hxe] at hnone; simp at hnone
        | false => rfl
      rw [hx] at hnone
      rw [List.find?_cons_of_neg _ (by simp [hx])]
      exact ih hnone

/-- C7 (amended): `delegate` succeeds exactly when the scope is valid, the
    delegator has a voice row in the scope (its balance may be zero), and
    the walk along existing delegatee edges starting at the delegatee
    reaches an account with no outgoing edge within max_depth hops; the
    walk reports failure both when it returns to the delegator and when the
    depth bound is exhausted.  On success the delegator's single outgoing
    edge in the scope points at the delegatee with weight 1.0. -/
theorem delegate_requires_row_and_bounded_chain :
    (∀ (cfg : Config) (now : Nat) (st : GovState) (dlgtor dlgte scope : Name),
      (∃ st', delegateAct cfg now st dlgtor dlgte scope = .ok st') ↔
        ((scope = self_account ∨ scope = alliance_type) ∧
         (tfind (scopeVoices st scope) dlgtor).isSome = true ∧
         walk_delegatee_chain (delTable st scope) dlgtor dlgte (cfg "dlegate.dpth") = true)) ∧
    (∀ (cfg : Config) (now : Nat) (st : GovState) (dlgtor dlgte scope : Name)
       (st' : GovState),
      delegateAct cfg now st dlgtor dlgte scope = .ok st' →
      ∃ e, (delTable st' scope).find? (fun r => r.delegator == dlgtor) = some e ∧
        e.delegatee = dlgte ∧ e.weight = 1) ∧
    (∀ (edges : List DelegateRow) (dlgtor cur : Name),
      walk_delegatee_chain edges dlgtor cur 0 = false) ∧
    (∀ (edges : List DelegateRow) (dlgtor cur : Name) (depth : Nat) (e : DelegateRow),
      edges.find? (fun r => r.delegator == cur) = some e →
      e.delegatee = dlgtor →
      walk_delegatee_chain edges dlgtor cur (depth + 1) = false) ∧
    (∀ (edges : List DelegateRow) (dlgtor cur : Name) (depth : Nat),
      edges.find? (fun r => r.delegator == cur) = none →
      walk_delegatee_chain edges dlgtor cur (depth + 1) = true) := by
  refine ⟨?_, ?_, ?_, ?_, ?_⟩
  · intro cfg now st dlgtor dlgte scope
    unfold delegateAct check_voice_scope
    by_cases hscope : scope = self_account ∨ scope = alliance_type
    · rw [if_pos hscope]
      dsimp only
      cases hrow : tfind (scopeVoices st scope) dlgtor with
      | none =>
        simp only [hrow]
        constructor
        · rintro ⟨st', hst'⟩
          exact absurd hst' (by simp)
        · rintro ⟨_, hsome, _⟩
          simp at hsome
      | some b =>
        simp only [hrow]
        by_cases hwalk :
            walk_delegatee_chain (delTable st scope) dlgtor dlgte (cfg "dlegate.dpth") = true
        · rw [if_pos hwalk]
          exact ⟨fun _ => ⟨hscope, rfl, hwalk⟩, fun _ => ⟨_, rfl⟩⟩
        · rw [if_neg hwalk]
          constructor
          · rintro ⟨st', hst'⟩
            exact absurd hst' (by simp)
          · rintro ⟨_, _, hw⟩
            exact absurd hw hwalk
    · rw [if_neg hscope]
      constructor
      · rintro ⟨st', hst'⟩
        exact absurd hst' (by simp)
      · rintro ⟨hs, _, _⟩
        exact absurd hs hscope
  · intro cfg now st dlgtor dlgte scope st' h
    unfold delegateAct at h
    split at h
    · exact absurd h (by simp)
    · cases hrow : tfind (scopeVoices st scope) dlgtor with
      | none => rw [hrow] at h; exact absurd h (by simp)
      | some b =>
        rw [hrow] at h
        dsimp only at h
        split at h
        · injection h with h1
          subst h1
          have hdel : delTable (setDelTable st scope
              (upsert_delegate (delTable st scope) dlgtor dlgte now)) scope =
              upsert_delegate (delTable st scope) dlgtor dlgte now := by
            unfold delTable setDelTable
            split <;> simp
          rw [hdel]
          unfold upsert_delegate
          cases hfe : (delTable st scope).find? (fun e => e.delegator == dlgtor) with
          | some e0 =>
            rw [if_pos (by simp : (some e0).isSome = true)]
            refine ⟨_, find_upsert_existing _ _ _ _ _ hfe, ?_, ?_⟩ <;> rfl
          | none =>
            rw [if_neg (by simp : ¬ (none : Option DelegateRow).isSome = true)]
            have hins := find_insertEdgeSorted (delTable st scope)
              (DelegateRow.mk dlgtor dlgte 1 now) hfe
            refine ⟨_, hins, ?_, ?_⟩ <;> rfl
        · exact absurd h (by simp)
  · intro edges dlgtor cur
    rfl
  · intro edges dlgtor cur depth e hfind hret
    unfold walk_delegatee_chain
    rw [hfind]
    dsimp only
    rw [if_pos hret]
  · intro edges dlgtor cur depth hfind
    unfold walk_delegatee_chain
    rw [hfind]

/-- Witness for C7: a valid delegation (voice row present, empty edge
    table) succeeds with depth 10 and stores the edge with weight 1. -/
theorem delegate_requires_row_and_bounded_chain_witness :
    ((∃ st', delegateAct cfgA 5 stDel0 "zz" "bob" self_account = .ok st') ↔
      ((self_account = self_account ∨ self_account = alliance_type) ∧
       (tfind (scopeVoices stDel0 self_account) "zz").isSome = true ∧
       walk_delegatee_chain (delTable stDel0 self_account) "zz" "bob"
         (cfgA "dlegate.dpth") = true)) ∧
    ((self_account = self_account ∨ self_account = alliance_type) ∧
     (tfind (scopeVoices stDel0 self_account) "zz").isSome = true ∧
     walk_delegatee_chain (delTable stDel0 self_account) "zz" "bob"
       (cfgA "dlegate.dpth") = true) :=
  ⟨delegate_requires_row_and_bounded_chain.1 cfgA 5 stDel0 "zz" "bob" self_account,
   by decide⟩

/-! ### C4 -/

/-- The cumulative effect of `decay_chunk` on the alliance-scope table:
    each visited default-scope account's alliance row, when present, is
    multiplied once. -/
def decayAllianceUpd (mult : ℚ) : List (Name × Nat) → List (Name × Nat) → List (Name × Nat)
  | [], va => va
  | (a, _) :: rest, va =>
    decayAllianceUpd mult rest
      (match tfind va a with
       | some ab => tupdate va a (ratFloorNat ((ab : ℚ) * mult))
       | none => va)

theorem decay_chunk_full (mult : ℚ) :
    ∀ (count : Nat) (vs va : List (Name × Nat)), vs.length ≤ count →
      decay_chunk mult count vs va =
        (vs.map (fun e => (e.1, ratFloorNat ((e.2 : ℚ) * mult))),
         decayAllianceUpd mult vs va, none) := by
  intro count
  induction count with
  | zero =>
    intro vs va hlen
    cases vs with
    | nil => rfl
    | cons e rest => simp at hlen
  | succ n ih =>
    intro vs va hlen
    cases vs with
    | nil => rfl
    | cons e rest =>
      cases e with
      | mk a b =>
        show decay_chunk mult (n + 1) ((a, b) :: rest) va = _
        unfold decay_chunk
        dsimp only
        rw [ih rest _ (by simpa using hlen)]
        rfl

theorem decayAllianceUpd_tfind (mult : ℚ) :
    ∀ (vs va : List (Name × Nat)), (vs.map Prod.fst).Nodup → ∀ (x : Name),
      tfind (decayAllianceUpd mult vs va) x =
        if x ∈ vs.map Prod.fst then
          (tfind va x).map (fun b : Nat => ratFloorNat ((b : ℚ) * mult))
        else tfind va x := by
  intro vs
  induction vs with
  | nil =>
    intro va _ x
    simp [decayAllianceUpd]
  | cons e rest ih =>
    intro va hnd x
    cases e with
    | mk a b =>
      rw [List.map_cons, List.nodup_cons] at hnd
      show tfind (decayAllianceUpd mult rest _) x = _
      rw [ih _ hnd.2 x]
      by_cases hxa : x = a
      · subst hxa
        rw [if_neg (by simpa using hnd.1), if_pos (by simp)]
        cases hva : tfind va x with
        | none => simp [hva]
        | some ab =>
          dsimp only
          rw [tfind_tupdate, if_pos rfl, hva]
          rfl
      · by_cases hxr : x ∈ rest.map Prod.fst
        · rw [if_pos hxr, if_pos (by simp [hxr])]
          cases hva : tfind va a with
          | none => rfl
          | some ab =>
            dsimp only
            rw [tfind_tupdate, if_neg hxa]
        · rw [if_neg hxr, if_neg (by simp [hxa, hxr])]
          cases hva : tfind va a with
          | none => rfl
          | some ab =>
            dsimp only
            rw [tfind_tupdate, if_neg hxa]

/-- The decay trigger fires: the baseline moves to now and a single decay
    multiplication is applied to the whole default table (one chunk). -/
theorem decayvoices_triggered (cfg : Config) (now : Nat) (c : CycleRec)
    (vs va : List (Name × Nat))
    (hcond : c.t_onperiod < now ∧ cfg "decaytime" ≤ sub64 now c.t_onperiod ∧
             cfg "propdecaysec" ≤ sub64 now c.t_voicedecay)
    (hpct : ¬ 100 < cfg "vdecayprntge")
    (hbatch : vs.length ≤ cfg "batchsize") :
    decayvoices cfg now c vs va =
      .ok ({ c with t_voicedecay := now },
        vs.map (fun e => (e.1,
          ratFloorNat ((e.2 : ℚ) * ((100 - (cfg "vdecayprntge" : ℚ)) / 100)))),
        decayAllianceUpd ((100 - (cfg "vdecayprntge" : ℚ)) / 100) vs va, none) := by
  unfold decayvoices
  rw [if_pos hcond]
  unfold decayvoice
  rw [if_neg hpct]
  dsimp only
  rw [decay_chunk_full _ _ _ _ hbatch]
  rfl

theorem decayvoices_not_triggered (cfg : Config) (now : Nat) (c : CycleRec)
    (vs va : List (Name × Nat))
    (hcond : ¬ (c.t_onperiod < now ∧ cfg "decaytime" ≤ sub64 now c.t_onperiod ∧
                cfg "propdecaysec" ≤ sub64 now c.t_voicedecay)) :
    decayvoices cfg now c vs va = .ok (c, vs, va, none) := by
  unfold decayvoices
  rw [if_neg hcond]

def cycC4 : CycleRec := { propcycle := 3, t_onperiod := 0, t_voicedecay := 0 }

theorem decay_value_900 :
    ratFloorNat (((1000 : Nat) : ℚ) * ((100 - (cfgA "vdecayprntge" : ℚ)) / 100)) = 900 := by
  simp +decide [cfgA]
  norm_num [ratFloorNat]
  decide

/-- Counterexample for C4: balance 1000, decay 10 percent, decay interval
    100 seconds, 200 seconds elapsed since the decay baseline (two full
    intervals, so the claim's `n = 2 + 1 = 3` predicts `1000*0.9^3 = 729`).
    The triggered decay multiplies once: both scopes end at 900, not 729. -/
theorem decay_single_multiplication_not_pow :
    decayvoices cfgA 200 cycC4 [("a", 1000)] [("a", 1000)] =
      .ok ({ cycC4 with t_voicedecay := 200 }, [("a", 900)], [("a", 900)], none) ∧
    ratFloorNat (((1000 : Nat) : ℚ) *
      (1 - (cfgA "vdecayprntge" : ℚ) / 100) ^ (200 / 100 + 1)) = 729 ∧
    ¬ (900 : Nat) = 729 := by
  refine ⟨?_, ?_, by decide⟩
  · rw [decayvoices_triggered cfgA 200 cycC4 [("a", 1000)] [("a", 1000)]
      (by decide) (by decide) (by decide)]
    rw [show decayAllianceUpd ((100 - (cfgA "vdecayprntge" : ℚ)) / 100)
          [("a", 1000)] [("a", 1000)] =
        [("a", ratFloorNat (((1000 : Nat) : ℚ) *
          ((100 - (cfgA "vdecayprntge" : ℚ)) / 100)))] from by
      unfold decayAllianceUpd
      rw [show tfind [("a", (1000 : Nat))] "a" = some 1000 from by decide]
      rfl]
    dsimp only [List.map]
    rw [decay_value_900]
  · simp +decide [cfgA]
    norm_num [ratFloorNat]
    decide

/-- C4 (amended): when the decay trigger fires (the configured idle time
    since the last cycle tick and the configured minimum decay interval
    since the previous decay application have both elapsed), the decay
    baseline moves to now and every account with a default-scope voice row
    has that balance — and its alliance-scope balance, when such a row
    exists — multiplied once by (1 - decay_pct/100) (floored); alliance
    rows of accounts the default table does not list are unchanged.  When
    the trigger conditions fail nothing changes.  The exponent formula
    `n = floor(elapsed/decay_interval) + 1` belongs to `calculate_decay`,
    the retroactive decay used by voice recovery, not to the periodic
    decay. -/
theorem decayvoices_single_decay_per_trigger :
    (∀ (cfg : Config) (now : Nat) (c : CycleRec) (vs va : List (Name × Nat)),
      (c.t_onperiod < now ∧ cfg "decaytime" ≤ sub64 now c.t_onperiod ∧
       cfg "propdecaysec" ≤ sub64 now c.t_voicedecay) →
      ¬ 100 < cfg "vdecayprntge" →
      vs.length ≤ cfg "batchsize" →
      (vs.map Prod.fst).Nodup →
      ∃ va1, decayvoices cfg now c vs va =
        .ok ({ c with t_voicedecay := now },
          vs.map (fun e => (e.1,
            ratFloorNat ((e.2 : ℚ) * ((100 - (cfg "vdecayprntge" : ℚ)) / 100)))),
          va1, none) ∧
        ∀ x, tfind va1 x =
          if x ∈ vs.map Prod.fst then
            (tfind va x).map (fun b : Nat =>
              ratFloorNat ((b : ℚ) * ((100 - (cfg "vdecayprntge" : ℚ)) / 100)))
          else tfind va x) ∧
    (∀ (cfg : Config) (now : Nat) (c : CycleRec) (vs va : List (Name × Nat)),
      ¬ (c.t_onperiod < now ∧ cfg "decaytime" ≤ sub64 now c.t_onperiod ∧
         cfg "propdecaysec" ≤ sub64 now c.t_voicedecay) →
      decayvoices cfg now c vs va = .ok (c, vs, va, none)) ∧
    (∀ (cfg : Config) (c : CycleRec) (v : Nat),
      ¬ 100 < cfg "vdecayprntge" →
      c.t_onperiod + cfg "decaytime" < c.t_voicedecay →
      calculate_decay cfg c v = .ok (ratFloorNat ((v : ℚ) *
        (1 - (cfg "vdecayprntge" : ℚ) / 100) ^
          ((c.t_voicedecay - (c.t_onperiod + cfg "decaytime")) / cfg "propdecaysec" + 1)))) := by
  refine ⟨?_, decayvoices_not_triggered, ?_⟩
  · intro cfg now c vs va hcond hpct hbatch hnd
    exact ⟨_, decayvoices_triggered cfg now c vs va hcond hpct hbatch,
      decayAllianceUpd_tfind _ vs va hnd⟩
  · intro cfg c v hpct htime
    unfold calculate_decay
    rw [if_neg hpct, if_neg (by omega)]

/-- Witness for C4 at the concrete 200-second decay scenario. -/
theorem decayvoices_single_decay_per_trigger_witness :
    ((cycC4.t_onperiod < 200 ∧ cfgA "decaytime" ≤ sub64 200 cycC4.t_onperiod ∧
      cfgA "propdecaysec" ≤ sub64 200 cycC4.t_voicedecay) ∧
     ¬ 100 < cfgA "vdecayprntge" ∧
     ([("a", (1000 : Nat))].map Prod.fst).Nodup) ∧
    ∃ va1, decayvoices cfgA 200 cycC4 [("a", 1000)] [("a", 1000)] =
      .ok ({ cycC4 with t_voicedecay := 200 },
        [("a", (1000 : Nat))].map (fun e => (e.1,
          ratFloorNat ((e.2 : ℚ) * ((100 - (cfgA "vdecayprntge" : ℚ)) / 100)))),
        va1, none) ∧
      ∀ x, tfind va1 x =
        if x ∈ [("a", (1000 : Nat))].map Prod.fst then
          (tfind [("a", (1000 : Nat))] x).map (fun b : Nat =>
            ratFloorNat ((b : ℚ) * ((100 - (cfgA "vdecayprntge" : ℚ)) / 100)))
        else tfind [("a", (1000 : Nat))] x :=
  ⟨⟨by decide, by decide, by decide⟩,
   decayvoices_single_decay_per_trigger.1 cfgA 200 cycC4 [("a", 1000)] [("a", 1000)]
     (by decide) (by decide) (by decide) (by decide)⟩

/-! ### C10 -/

def stC10 : GovState :=
  { users := [("alice", "citizen")],
    props := [activeProp 0 0 status_open],
    voiceSelf := [("alice", 50)] }

/-- Counterexample for C10: alice has a voice row in the default scope only
    (none in the alliance scope), yet her favour vote of 10 on a campaign
    proposal succeeds and debits her default-scope voice from 50 to 40 —
    the vote path resolves voice in the named contract-self scope, not
    through the empty-scope lockstep path that silently no-ops. -/
theorem vote_debits_voice_of_single_row_account :
    tfind stC10.voiceSelf "alice" = some 50 ∧
    tfind stC10.voiceAlliance "alice" = none ∧
    (favourAct cfgA 77 stC10 "alice" 2 10).toOption.map
      (fun out => out.1.voiceSelf) = some [("alice", 40)] := by
  refine ⟨by decide, by decide, by decide⟩

/-- C10 (amended): an account present in exactly one of the two
    default-path voice tables makes `voice_change` on the EMPTY scope — the
    lockstep path used by voice management — fall through silently: both
    tables unchanged, zero percentage, no error.  But the vote path never
    uses the empty scope: `vote_aux` always passes the named alliance or
    contract-self scope (chosen from the proposal's fund type) down to the
    voice debit, and there a missing row is a hard error while a present
    row is debited by the vote amount — so a vote by such an account does
    debit voice whenever its single row is in the scope the proposal
    selects. -/
theorem voice_change_empty_scope_noop_but_votes_debit_scoped :
    (∀ (st : GovState) (user : Name) (amount : Nat) (reduce : Bool),
      (tfind st.voiceSelf user).isSome ≠ (tfind st.voiceAlliance user).isSome →
      voice_change st user amount reduce "" = .ok (0, st)) ∧
    (∀ (st : GovState) (user : Name) (amount : Nat) (reduce : Bool),
      tfind st.voiceSelf user = none →
      voice_change st user amount reduce self_account = .error "user does not have voice") ∧
    (∀ (st : GovState) (user : Name) (amount b : Nat),
      tfind st.voiceSelf user = some b → amount ≤ b →
      voice_change st user amount true self_account =
        .ok ((amount : ℚ) / (b : ℚ),
             { st with voiceSelf := tupdate st.voiceSelf user (sub64 b amount) })) ∧
    (∀ (cfg : Config) (now : Nat) (st : GovState) (voter : Name) (id amount : Nat)
       (opt : Name) (is_new is_delegated : Bool) (p : Proposal),
      check_citizen st voter = .ok () →
      pfind st.props id = some p →
      p.executed = false →
      p.stage = stage_active →
      (is_new = true → p.status = status_open) →
      ((vfind st.votes id).find? (fun r => r.account == voter)) = none →
      (opt = trust ∨ opt = distrust ∨ opt = abstain) →
      ∃ st1, vote_aux cfg now st voter id amount opt is_new is_delegated =
          vote_aux_tail cfg now st1 voter id amount opt is_new is_delegated
            (if get_type p.fund = alliance_type then alliance_type else self_account) ∧
        st1.voiceSelf = st.voiceSelf ∧ st1.voiceAlliance = st.voiceAlliance ∧
        ¬ (if get_type p.fund = alliance_type then alliance_type else self_account) = "") := by
  refine ⟨?_, ?_, ?_, ?_⟩
  · intro st user amount reduce hxor
    unfold voice_change
    rw [if_pos rfl]
    cases hv : tfind st.voiceSelf user with
    | none =>
      cases hva : tfind st.voiceAlliance user with
      | none => rw [hv, hva] at hxor; exact absurd rfl hxor
      | some ba => rfl
    | some b =>
      cases hva : tfind st.voiceAlliance user with
      | none => rfl
      | some ba => rw [hv, hva] at hxor; exact absurd rfl hxor
  · intro st user amount reduce hnone
    unfold voice_change
    rw [if_neg (by decide)]
    rw [show check_voice_scope self_account = .ok () from by decide]
    dsimp only
    rw [show scopeVoices st self_account = st.voiceSelf from by
      unfold scopeVoices; rw [if_neg (by decide)]]
    rw [hnone]
  · intro st user amount b hsome hle
    unfold voice_change
    rw [if_neg (by decide)]
    rw [show check_voice_scope self_account = .ok () from by decide]
    dsimp only
    rw [show scopeVoices st self_account = st.voiceSelf from by
      unfold scopeVoices; rw [if_neg (by decide)]]
    rw [hsome]
    dsimp only
    rw [if_pos rfl, if_pos hle]
    rw [show ∀ l, setScopeVoices st self_account l = { st with voiceSelf := l } from by
      intro l; unfold setScopeVoices; rw [if_neg (by decide)]]
  · intro cfg now st voter id amount opt is_new is_delegated p
      hc hp hexec hstage hopen hrow hopt
    unfold vote_aux
    rw [hc, hp]
    dsimp only
    rw [if_neg (by simp [hexec]), if_neg (by simp [hstage]),
        if_neg (by rintro ⟨h1, h2⟩; exact h2 (hopen h1)), hrow,
        if_neg (by simp), if_neg (not_not_intro hopt)]
    refine ⟨_, rfl, ?_, ?_, ?_⟩
    · split
      · rfl
      · split <;> rfl
    · split
      · rfl
      · split <;> rfl
    · split <;> decide

/-- Witness for C10: with alice holding 50 voice in the default scope only,
    the empty-scope path no-ops and the contract-self-scope debit of 10
    succeeds with fraction 10/50. -/
theorem voice_change_empty_scope_noop_but_votes_debit_scoped_witness :
    ((tfind stC10.voiceSelf "alice").isSome ≠ (tfind stC10.voiceAlliance "alice").isSome ∧
      voice_change stC10 "alice" 7 true "" = .ok (0, stC10)) ∧
    (tfind stC10.voiceSelf "alice" = some 50 ∧ (10 : Nat) ≤ 50 ∧
      voice_change stC10 "alice" 10 true self_account =
        .ok (((10 : Nat) : ℚ) / ((50 : Nat) : ℚ),
             { stC10 with voiceSelf := tupdate stC10.voiceSelf "alice" (sub64 50 10) })) :=
  ⟨⟨by decide,
    voice_change_empty_scope_noop_but_votes_debit_scoped.1 stC10 "alice" 7 true (by decide)⟩,
   ⟨by decide, by decide,
    voice_change_empty_scope_noop_but_votes_debit_scoped.2.2.1 stC10 "alice" 10 50
      (by decide) (by decide)⟩⟩

/-! ### C6 -/

theorem revert_vote_error_of_bad_row (st : GovState) (voter : Name) (id : Nat)
    (p : Proposal) (vr : VoteRow)
    (hp : pfind st.props id = some p)
    (hrow : (vfind st.votes id).find? (fun r => r.account == voter) = some vr)
    (hbad : ¬ (p.status = status_evaluate ∧ vr.favour = true ∧ 0 < vr.amount)) :
    exceptIsError (revert_vote st voter id) = true := by
  unfold revert_vote
  rw [hp]
  dsimp only
  rw [hrow]
  dsimp only
  by_cases hs : p.status = status_evaluate
  · rw [if_neg (not_not_intro hs), if_pos (fun hfa => hbad ⟨hs, hfa⟩)]
    rfl
  · rw [if_pos hs]
    rfl

def rowC6 : VoteRow := { account := "v", amount := 10, favour := true }

def stC6 : GovState :=
  { users := [("v", "citizen")],
    props := [activeProp 10 0 status_open],
    votes := [(2, [rowC6])],
    voiceSelf := [("v", 50)] }

/-- Counterexample for C6: the proposal is in Open status and voter v holds
    a recorded favour vote; casting an against vote does not erase the
    favour vote and record the against vote — it aborts, because the
    reversal path demands Evaluate status. -/
theorem against_with_favour_vote_fails_in_open_status :
    (vfind stC6.votes 2).find? (fun r => r.account == "v") = some rowC6 ∧
    (pfind stC6.props 2).map Proposal.status = some status_open ∧
    againstAct cfgA 77 stC6 "v" 2 5 = .error "Proposal is not in evaluate state" := by
  refine ⟨by decide, by decide, by decide⟩

def stC6e : GovState :=
  { users := [("v", "citizen")],
    props := [activeProp 10 0 status_evaluate],
    votes := [(2, [rowC6])],
    voiceSelf := [("v", 50)] }

/-- C6 (amended): successful votes and reversals preserve the at-most-one
    vote row per (proposal, voter) invariant; when the proposal is in
    Evaluate status and the voter's recorded vote is a favour vote of
    positive amount, the reversal erases the row and subtracts its amount
    from the proposal's favour and total tallies; any repeat vote by the
    same voter on the same proposal fails, and a reversal attempt outside
    Evaluate status — or against a non-favour or zero-amount vote — fails
    rather than erasing the row. -/
theorem vote_uniqueness_and_evaluate_only_reversal :
    (∀ (cfg : Config) (now : Nat) (st : GovState) (voter : Name) (id amount : Nat)
       (opt : Name) (is_new is_del : Bool) (st' : GovState) (ds : List Deferred),
      votesNodup st →
      vote_aux cfg now st voter id amount opt is_new is_del = .ok (st', ds) →
      votesNodup st') ∧
    (∀ (st : GovState) (voter : Name) (id : Nat) (reverted : Bool) (st1 : GovState),
      votesNodup st →
      revert_vote st voter id = .ok (reverted, st1) → votesNodup st1) ∧
    (∀ (st : GovState) (voter : Name) (id : Nat) (p : Proposal) (vr : VoteRow),
      pfind st.props id = some p →
      (vfind st.votes id).find? (fun r => r.account == voter) = some vr →
      p.status = status_evaluate → vr.favour = true → 0 < vr.amount →
      revert_vote st voter id = .ok (true,
        { st with
            props := pmodify st.props id (fun prop =>
              { prop with total := sub64 prop.total vr.amount,
                          favour := sub64 prop.favour vr.amount }),
            votes := vset st.votes id
              ((vfind st.votes id).eraseP (fun r => r.account == voter)) })) ∧
    (∀ (cfg : Config) (now : Nat) (st : GovState) (voter : Name) (id amount : Nat)
       (opt : Name) (is_new is_del : Bool) (vr : VoteRow),
      (vfind st.votes id).find? (fun r => r.account == voter) = some vr →
      exceptIsError (vote_aux cfg now st voter id amount opt is_new is_del) = true) ∧
    (∀ (st : GovState) (voter : Name) (id : Nat) (p : Proposal) (vr : VoteRow),
      pfind st.props id = some p →
      (vfind st.votes id).find? (fun r => r.account == voter) = some vr →
      ¬ (p.status = status_evaluate ∧ vr.favour = true ∧ 0 < vr.amount) →
      exceptIsError (revert_vote st voter id) = true) := by
  refine ⟨?_, ?_, ?_, ?_, ?_⟩
  · intro cfg now st voter id amount opt is_new is_del st' ds hnd h
    exact vote_aux_nodup cfg now st voter id amount opt is_new is_del st' ds hnd h
  · intro st voter id reverted st1 hnd h
    exact revert_vote_nodup st voter id reverted st1 hnd h
  · intro st voter id p vr hp hrow hs hf ha
    exact revert_vote_ok_shape st voter id p vr hp hrow hs hf ha
  · intro cfg now st voter id amount opt is_new is_del vr hrow
    exact vote_aux_error_of_existing_row cfg now st voter id amount opt is_new is_del vr hrow
  · intro st voter id p vr hp hrow hbad
    exact revert_vote_error_of_bad_row st voter id p vr hp hrow hbad

/-- Witness for C6: in Evaluate status v's favour vote of 10 is reversed
    (row erased, tallies reduced); a repeat favour vote fails; and in Open
    status the reversal attempt fails. -/
theorem vote_uniqueness_and_evaluate_only_reversal_witness :
    (pfind stC6e.props 2 = some (activeProp 10 0 status_evaluate) ∧
     (vfind stC6e.votes 2).find? (fun r => r.account == "v") = some rowC6 ∧
     (activeProp 10 0 status_evaluate).status = status_evaluate ∧
     rowC6.favour = true ∧ 0 < rowC6.amount ∧
     revert_vote stC6e "v" 2 = .ok (true,
        { stC6e with
            props := pmodify stC6e.props 2 (fun prop =>
              { prop with total := sub64 prop.total rowC6.amount,
                          favour := sub64 prop.favour rowC6.amount }),
            votes := vset stC6e.votes 2
              ((vfind stC6e.votes 2).eraseP (fun r => r.account == "v")) })) ∧
    exceptIsError (vote_aux cfgA 77 stC6e "v" 2 5 trust true false) = true ∧
    (¬ ((activeProp 10 0 status_open).status = status_evaluate ∧
        rowC6.favour = true ∧ 0 < rowC6.amount) ∧
     exceptIsError (revert_vote stC6 "v" 2) = true) :=
  ⟨⟨by decide, by decide, by decide, by decide, by decide,
    vote_uniqueness_and_evaluate_only_reversal.2.2.1 stC6e "v" 2
      (activeProp 10 0 status_evaluate) rowC6 (by decide) (by decide)
      (by decide) (by decide) (by decide)⟩,
   vote_uniqueness_and_evaluate_only_reversal.2.2.2.1 cfgA 77 stC6e "v" 2 5
     trust true false rowC6 (by decide),
   ⟨by decide,
    vote_uniqueness_and_evaluate_only_reversal.2.2.2.2 stC6 "v" 2
      (activeProp 10 0 status_open) rowC6 (by decide) (by decide) (by decide)⟩⟩

/-! ### C9 -/

theorem update_min_stake_props (cfg : Config) (st : GovState) (pid : Nat) (st' : GovState)
    (h : update_min_stake cfg st pid = .ok st') : st'.props = st.props := by
  unfold update_min_stake at h
  split at h
  · exact absurd h (by simp)
  · split at h
    · exact absurd h (by simp)
    · split at h
      · injection h with h1
        subst h1
        rfl
      · injection h with h1
        subst h1
        rfl

def schedC9 : List Nat := [25, 18446744073709551591, 50, 50]

def stC9 : GovState := { users := [("alice", "resident")] }

/-- Counterexample for C9: the percentage sum is taken with wrapping 64-bit
    addition, so the schedule [25, 2^64-25, 50, 50] — whose true sum is
    2^64 + 100, not 100 — is accepted by createx and stored verbatim on the
    new proposal. -/
theorem createx_accepts_wrapping_percentages :
    schedC9.sum = UINT64_MOD + 100 ∧
    ¬ schedC9.sum = 100 ∧
    (createx cfgA 3 ["alice", "bob", "gift.seeds"] stC9 "alice" "bob" 10000
        bankaccts_campaigns schedC9).toOption.map
      (fun st' => st'.props.map Proposal.pay_percentages) = some [schedC9] := by
  refine ⟨by decide, by decide, by decide⟩

/-- C9 (amended): check_percentages accepts a schedule exactly when it has
    between 4 and 25 entries, its initial payout is at most 25, and its sum
    taken with wrapping 64-bit addition is 100 — which coincides with the
    true sum only below 2^64.  Every accepted non-invite creation passed
    this check on the stored schedule and a failing check rejects the
    creation; accepted updates pass it on the schedule they store (the
    submitted one, or the fixed invite schedule for invite proposals);
    invite-type creations skip the check but their fixed schedule
    [100, 0, 0, 0, 0, 0] sums to 100 with 6 entries. -/
theorem percentages_checked_with_wrapping_sum :
    (∀ pp : List Nat, check_percentages pp = .ok () ↔
      (4 ≤ pp.length ∧ pp.length ≤ 25 ∧ sum64 pp = 100 ∧ pp.getD 0 0 ≤ 25)) ∧
    (∀ pp : List Nat, pp.sum < UINT64_MOD → sum64 pp = pp.sum) ∧
    (∀ (cfg : Config) (now : Nat) (ch : List Name) (st : GovState)
       (creator recipient : Name) (qty : Int) (fund cty : Name) (pp : List Nat)
       (mpi pl rwd : Int) (st' : GovState),
      create_aux cfg now ch st creator recipient qty fund cty pp mpi pl rwd = .ok st' →
      (cty = campaign_invite_type ∨ check_percentages pp = .ok ()) ∧
      ∃ p, st'.props = st.props ++ [p] ∧ p.pay_percentages = pp) ∧
    (∀ (cfg : Config) (now : Nat) (ch : List Name) (st : GovState)
       (creator recipient : Name) (qty : Int) (fund cty : Name) (pp : List Nat)
       (mpi pl rwd : Int),
      ¬ cty = campaign_invite_type →
      exceptIsError (check_percentages pp) = true →
      exceptIsError (create_aux cfg now ch st creator recipient qty fund cty pp mpi pl rwd)
        = true) ∧
    (∀ (st : GovState) (id : Nat) (t s d i u : String) (pp : List Nat) (st' : GovState),
      updatex st id t s d i u pp = .ok st' →
      ∃ p pp2, pfind st.props id = some p ∧
        pp2 = (if p.campaign_type = campaign_invite_type then [100, 0, 0, 0, 0, 0] else pp) ∧
        check_percentages pp2 = .ok () ∧
        st'.props = pmodify st.props id (fun prop =>
          { prop with title := t, summary := s, description := d, image := i, url := u,
                      pay_percentages := pp2 })) ∧
    (sum64 [100, 0, 0, 0, 0, 0] = 100 ∧
     4 ≤ ([100, 0, 0, 0, 0, 0] : List Nat).length ∧
     ([100, 0, 0, 0, 0, 0] : List Nat).length ≤ 25) := by
  refine ⟨?_, sum64_eq_sum, ?_, ?_, ?_, by decide, by decide, by decide⟩
  · intro pp
    unfold check_percentages
    dsimp only
    by_cases h0 : pp.length = 0
    · rw [if_pos h0, if_neg (by decide : ¬ UINT64_MOD - 1 < 3),
          if_pos (by decide : 24 < UINT64_MOD - 1)]
      constructor
      · intro h
        exact absurd h (by simp)
      · rintro ⟨h4, -⟩
        omega
    · rw [if_neg h0]
      by_cases h3 : pp.length - 1 < 3
      · rw [if_pos h3]
        constructor
        · intro h
          exact absurd h (by simp)
        · rintro ⟨h4, -⟩
          omega
      · rw [if_neg h3]
        by_cases h24 : 24 < pp.length - 1
        · rw [if_pos h24]
          constructor
          · intro h
            exact absurd h (by simp)
          · rintro ⟨-, h25, -⟩
            omega
        · rw [if_neg h24]
          by_cases hs : sum64 pp = 100
          · rw [if_neg (not_not_intro hs)]
            by_cases hg : 25 < pp.getD 0 0
            · rw [if_pos hg]
              constructor
              · intro h
                exact absurd h (by simp)
              · rintro ⟨-, -, -, hle⟩
                omega
            · rw [if_neg hg]
              constructor
              · intro _
                exact ⟨by omega, by omega, hs, by omega⟩
              · intro _
                rfl
          · rw [if_pos hs]
            constructor
            · intro h
              exact absurd h (by simp)
            · rintro ⟨-, -, hs100, -⟩
              exact absurd hs100 hs
  · intro cfg now ch st creator recipient qty fund cty pp mpi pl rwd st' h
    unfold create_aux at h
    cases hcr : check_resident st creator with
    | error e => rw [hcr] at h; exact absurd h (by simp)
    | ok u1 =>
      rw [hcr] at h
      cases hcp : (if cty = campaign_invite_type then Except.ok ()
                   else check_percentages pp) with
      | error e => rw [hcp] at h; exact absurd h (by simp)
      | ok u2 =>
        rw [hcp] at h
        dsimp only at h
        split at h
        · exact absurd h (by simp)
        · split at h
          · exact absurd h (by simp)
          · split at h
            · exact absurd h (by simp)
            · have hp := update_min_stake_props _ _ _ _ h
              constructor
              · by_cases hct : cty = campaign_invite_type
                · exact Or.inl hct
                · rw [if_neg hct] at hcp
                  cases u2
                  exact Or.inr hcp
              · exact ⟨_, hp, rfl⟩
  · intro cfg now ch st creator recipient qty fund cty pp mpi pl rwd hct hbad
    unfold create_aux
    cases hcr : check_resident st creator with
    | error e => rfl
    | ok u1 =>
      rw [if_neg hct]
      cases hcp : check_percentages pp with
      | error e => rfl
      | ok u2 =>
        rw [hcp] at hbad
        simp [exceptIsError] at hbad
  · intro st id t s d i u pp st' h
    unfold updatex at h
    cases hp : pfind st.props id with
    | none => rw [hp] at h; exact absurd h (by simp)
    | some p =>
      rw [hp] at h
      dsimp only at h
      split at h
      · exact absurd h (by simp)
      · split at h
        · exact absurd h (by simp)
        · cases hcp : check_percentages
            (if p.campaign_type = campaign_invite_type then [100, 0, 0, 0, 0, 0] else pp) with
          | error e => rw [hcp] at h; exact absurd h (by simp)
          | ok u2 =>
            rw [hcp] at h
            dsimp only at h
            injection h with h1
            subst h1
            cases u2
            exact ⟨p, _, rfl, rfl, hcp, rfl⟩

/-- Witness for C9: the standard [25,25,25,25] schedule passes the check;
    its wrapping sum is the true sum; and a bad schedule [50,50] aborts a
    concrete campaign creation. -/
theorem percentages_checked_with_wrapping_sum_witness :
    (4 ≤ ([25, 25, 25, 25] : List Nat).length ∧ ([25, 25, 25, 25] : List Nat).length ≤ 25 ∧
     sum64 [25, 25, 25, 25] = 100 ∧ ([25, 25, 25, 25] : List Nat).getD 0 0 ≤ 25) ∧
    check_percentages [25, 25, 25, 25] = .ok () ∧
    (([25, 25, 25, 25] : List Nat).sum < UINT64_MOD ∧
     sum64 [25, 25, 25, 25] = ([25, 25, 25, 25] : List Nat).sum) ∧
    (¬ campaign_funding_type = campaign_invite_type ∧
     exceptIsError (check_percentages [50, 50]) = true ∧
     exceptIsError (create_aux cfgA 3 ["alice", "bob", "gift.seeds"] stC9 "alice" "bob"
       10000 bankaccts_campaigns campaign_funding_type [50, 50] 0 0 0) = true) :=
  ⟨⟨by decide, by decide, by decide, by decide⟩,
   (percentages_checked_with_wrapping_sum.1 [25, 25, 25, 25]).mpr
     ⟨by decide, by decide, by decide, by decide⟩,
   ⟨by decide, percentages_checked_with_wrapping_sum.2.1 [25, 25, 25, 25] (by decide)⟩,
   ⟨by decide, by decide,
    percentages_checked_with_wrapping_sum.2.2.2.1 cfgA 3 ["alice", "bob", "gift.seeds"]
      stC9 "alice" "bob" 10000 bankaccts_campaigns campaign_funding_type [50, 50] 0 0 0
      (by decide) (by decide)⟩⟩

/-! ### C3 -/

def edgeAB : DelegateRow := { delegator := "a", delegatee := "b", weight := 1, timestamp := 0 }

def edgeBC : DelegateRow := { delegator := "b", delegatee := "c", weight := 1, timestamp := 0 }

def stC3 : GovState :=
  { users := [("a", "citizen"), ("b", "citizen"), ("c", "citizen")],
    props := [activeProp 0 0 status_open],
    voiceSelf := [("a", 100), ("b", 200), ("c", 400)],
    delSelf := [edgeAB, edgeBC] }

def pctC : ℚ := ((100 : Nat) : ℚ) / ((400 : Nat) : ℚ)

def pctB : ℚ := ((50 : Nat) : ℚ) / ((200 : Nat) : ℚ)

def rowC3c : VoteRow := { account := "c", amount := 100, favour := true }

def rowC3b : VoteRow := { account := "b", amount := 50, favour := true }

def rowC3a : VoteRow := { account := "a", amount := 25, favour := true }

def propC3 (t f : Nat) : Proposal := { activeProp 0 0 status_open with total := t, favour := f }

def stA : GovState :=
  { stC3 with
      props := [propC3 100 100],
      votes := [(2, [rowC3c])],
      voiceSelf := [("a", 100), ("b", 200), ("c", 300)],
      participants := [("c", (1, true))],
      actives := [("c", 77)],
      sizes := [(user_active_size, 1)],
      votedprops := [2] }

def stB : GovState :=
  { stC3 with
      props := [propC3 150 150],
      votes := [(2, [rowC3c, rowC3b])],
      voiceSelf := [("a", 100), ("b", 150), ("c", 300)],
      participants := [("c", (1, true)), ("b", (1, true))],
      actives := [("c", 77), ("b", 77)],
      sizes := [(user_active_size, 2)],
      votedprops := [2] }

def stE : GovState :=
  { stC3 with
      props := [propC3 175 175],
      votes := [(2, [rowC3c, rowC3b, rowC3a])],
      voiceSelf := [("a", 75), ("b", 150), ("c", 300)],
      participants := [("c", (1, true)), ("b", (1, true)), ("a", (1, true))],
      actives := [("c", 77), ("b", 77), ("a", 77)],
      sizes := [(user_active_size, 3)],
      votedprops := [2] }

def dsA : List Deferred := [Deferred.mimic "c" "b" self_account 2 pctC trust 100]

def dsB : List Deferred := [Deferred.mimic "b" "a" self_account 2 pctB trust 100]

theorem ratFloor_200_pctC : ratFloorNat (((200 : Nat) : ℚ) * pctC) = 50 := by
  norm_num [ratFloorNat, pctC]
  decide

theorem ratFloor_100_pctB : ratFloorNat (((100 : Nat) : ℚ) * pctB) = 25 := by
  norm_num [ratFloorNat, pctB]
  decide

theorem stepA : favourAct cfgA 77 stC3 "c" 2 100 = .ok (stA, dsA) := rfl

theorem stepM1 : execDeferred cfgA 77 stA (Deferred.mimic "c" "b" self_account 2 pctC trust 100)
    = .ok (stA, [Deferred.voteOnBehalf "b" 2 50 trust]) := by
  have h : execDeferred cfgA 77 stA (Deferred.mimic "c" "b" self_account 2 pctC trust 100)
      = .ok (stA, [Deferred.voteOnBehalf "b" 2
          (ratFloorNat (((200 : Nat) : ℚ) * pctC)) trust]) := rfl
  rw [h, ratFloor_200_pctC]

theorem stepB : voteonbehalf cfgA 77 stA "b" 2 50 trust = .ok (stB, dsB) := rfl

theorem stepM2 : execDeferred cfgA 77 stA (Deferred.voteOnBehalf "b" 2 50 trust)
    = .ok (stB, dsB) := stepB

theorem stepM3 : execDeferred cfgA 77 stB (Deferred.mimic "b" "a" self_account 2 pctB trust 100)
    = .ok (stB, [Deferred.voteOnBehalf "a" 2 25 trust]) := by
  have h : execDeferred cfgA 77 stB (Deferred.mimic "b" "a" self_account 2 pctB trust 100)
      = .ok (stB, [Deferred.voteOnBehalf "a" 2
          (ratFloorNat (((100 : Nat) : ℚ) * pctB)) trust]) := rfl
  rw [h, ratFloor_100_pctB]

theorem stepM4 : execDeferred cfgA 77 stB (Deferred.voteOnBehalf "a" 2 25 trust)
    = .ok (stE, []) := rfl

theorem runQueue_cons_ok (cfg : Config) (now fuel : Nat) (st st1 : GovState)
    (d : Deferred) (rest emitted : List Deferred)
    (h : execDeferred cfg now st d = .ok (st1, emitted)) :
    runQueue cfg now (fuel + 1) st (d :: rest) = runQueue cfg now fuel st1 (rest ++ emitted) := by
  have hq : runQueue cfg now (fuel + 1) st (d :: rest) =
      match execDeferred cfg now st d with
      | .ok (s1, em) => runQueue cfg now fuel s1 (rest ++ em)
      | .error _ => runQueue cfg now fuel st rest := rfl
  rw [hq, h]

theorem runQueue_nilStep (cfg : Config) (now : Nat) (fuel : Nat) (st : GovState) :
    runQueue cfg now fuel st [] = st := by
  cases fuel <;> rfl

/-- Counterexample for C3: with the delegation chain a -> b -> c (a's edge
    targets b, only b's edge targets c), c's favour vote of 100 out of its
    400 voice triggers the mimic fan-out, and running the deferred queue
    records votes not only for b (one hop, 50 = 1/4 of 200) but also for a
    (two hops, 25 = 1/4 of 100), even though no edge of a targets c — the
    fan-out cascades recursively through delegators of delegators. -/
theorem mimic_cascade_reaches_two_hops :
    (delIndex stC3 self_account "c").map DelegateRow.delegator = ["b"] ∧
    (delIndex stC3 self_account "b").map DelegateRow.delegator = ["a"] ∧
    favourAct cfgA 77 stC3 "c" 2 100 = .ok (stA, dsA) ∧
    (vfind (runQueue cfgA 77 10 stA dsA).votes 2).map (fun r => (r.account, r.amount)) =
      [("c", 100), ("b", 50), ("a", 25)] := by
  refine ⟨by decide, by decide, stepA, ?_⟩
  rw [show dsA = [Deferred.mimic "c" "b" self_account 2 pctC trust 100] from rfl]
  rw [show (10 : Nat) = 9 + 1 from rfl]
  rw [runQueue_cons_ok cfgA 77 9 stA stA
    (Deferred.mimic "c" "b" self_account 2 pctC trust 100) []
    [Deferred.voteOnBehalf "b" 2 50 trust] stepM1]
  rw [List.nil_append]
  rw [show (9 : Nat) = 8 + 1 from rfl]
  rw [runQueue_cons_ok cfgA 77 8 stA stB
    (Deferred.voteOnBehalf "b" 2 50 trust) [] dsB stepM2]
  rw [List.nil_append]
  rw [show dsB = [Deferred.mimic "b" "a" self_account 2 pctB trust 100] from rfl]
  rw [show (8 : Nat) = 7 + 1 from rfl]
  rw [runQueue_cons_ok cfgA 77 7 stB stB
    (Deferred.mimic "b" "a" self_account 2 pctB trust 100) []
    [Deferred.voteOnBehalf "a" 2 25 trust] stepM3]
  rw [List.nil_append]
  rw [show (7 : Nat) = 6 + 1 from rfl]
  rw [runQueue_cons_ok cfgA 77 6 stB stE
    (Deferred.voteOnBehalf "a" 2 25 trust) [] [] stepM4]
  rw [List.nil_append, runQueue_nilStep]
  decide

/-- C3 (amended): when a delegatee's vote consumed fraction pct of its own
    scoped voice, the resumed mimic pass emits, for every delegation edge
    targeting the delegatee from the cursor on (all of them when they fit
    one chunk), a vote on the delegator's behalf with the same option for
    floor(delegator_balance * pct) — amount zero for abstain.  But the
    fan-out is NOT one hop: a vote cast on a delegator's behalf is itself a
    full vote, and when edges target that delegator it schedules a further
    mimic at the next level, cascading recursively. -/
theorem mimic_fanout_same_fraction_and_cascades :
    (∀ (cfg : Config) (st : GovState) (dlgte dlgtor scope : Name) (pid : Nat) (pct : ℚ)
       (opt : Name) (chunksize : Nat) (e0 : DelegateRow) (tl : List DelegateRow),
      check_voice_scope scope = .ok () →
      (opt = trust ∨ opt = distrust) →
      (delIndex st scope dlgte).filter (fun e => nameLe dlgtor e.delegator) = e0 :: tl →
      e0.delegator = dlgtor →
      (e0 :: tl).length ≤ chunksize →
      (∀ e ∈ e0 :: tl, (tfind (scopeVoices st scope) e.delegator).isSome = true) →
      mimicvote cfg st dlgte dlgtor scope pid pct opt chunksize =
        .ok ((e0 :: tl).map (fun e => Deferred.voteOnBehalf e.delegator pid
          (ratFloorNat ((tget (scopeVoices st scope) e.delegator : ℚ) * pct)) opt))) ∧
    (∀ (cfg : Config) (st : GovState) (dlgte dlgtor scope : Name) (pid : Nat) (pct : ℚ)
       (chunksize : Nat) (e0 : DelegateRow) (tl : List DelegateRow),
      check_voice_scope scope = .ok () →
      (delIndex st scope dlgte).filter (fun e => nameLe dlgtor e.delegator) = e0 :: tl →
      e0.delegator = dlgtor →
      (e0 :: tl).length ≤ chunksize →
      mimicvote cfg st dlgte dlgtor scope pid pct abstain chunksize =
        .ok ((e0 :: tl).map (fun e =>
          Deferred.voteOnBehalf e.delegator pid 0 abstain))) ∧
    (∀ (cfg : Config) (now : Nat) (st : GovState) (voter : Name) (pid amount : Nat)
       (st' : GovState) (ds : List Deferred) (p : Proposal) (e : DelegateRow)
       (tl : List DelegateRow),
      pfind st.props pid = some p →
      voteonbehalf cfg now st voter pid amount trust = .ok (st', ds) →
      delIndex st (if get_type p.fund = alliance_type then alliance_type else self_account)
        voter = e :: tl →
      ∃ pct, ds = [Deferred.mimic voter e.delegator
        (if get_type p.fund = alliance_type then alliance_type else self_account)
        pid pct trust (cfg "batchsize")]) := by
  refine ⟨?_, ?_, ?_⟩
  · intro cfg st dlgte dlgtor scope pid pct opt chunksize e0 tl hs hopt hidx he0 hlen hbal
    unfold mimicvote
    rw [hs]
    dsimp only
    rw [hidx]
    dsimp only
    rw [if_neg (not_not_intro he0)]
    rw [List.take_of_length_le hlen]
    rw [mimic_fold_voting st scope pid pct opt hopt (e0 :: tl) [] hbal]
    rw [List.drop_eq_nil_of_le hlen]
    dsimp only
    rw [List.nil_append]
  · intro cfg st dlgte dlgtor scope pid pct chunksize e0 tl hs hidx he0 hlen
    unfold mimicvote
    rw [hs]
    dsimp only
    rw [hidx]
    dsimp only
    rw [if_neg (not_not_intro he0)]
    rw [List.take_of_length_le hlen]
    rw [mimic_fold_abstain st scope pid pct (e0 :: tl) []]
    rw [List.drop_eq_nil_of_le hlen]
    dsimp only
    rw [List.nil_append]
  · intro cfg now st voter pid amount st' ds p e tl hp h hidx
    unfold voteonbehalf at h
    rw [if_neg (by decide : ¬ trust = distrust)] at h
    obtain ⟨-, -, -, -, pct, hds⟩ :=
      vote_aux_ok_shape cfg now st voter pid amount trust true true st' ds p hp h
    refine ⟨pct, ?_⟩
    rw [hds]
    unfold send_mimic_delegatee_vote
    dsimp only
    rw [hidx]

/-- Witness for C3: b is the single delegator of c from cursor b on, all
    balances are present, so the mimic pass over stA emits exactly one
    vote-on-behalf for b; and b's resulting delegated vote, since a's edge
    targets b, schedules a further mimic for a — the second hop. -/
theorem mimic_fanout_same_fraction_and_cascades_witness :
    (check_voice_scope self_account = .ok () ∧
     (delIndex stA self_account "c").filter (fun e => nameLe "b" e.delegator)
       = [edgeBC] ∧
     edgeBC.delegator = "b" ∧
     ([edgeBC] : List DelegateRow).length ≤ 100 ∧
     (∀ e ∈ ([edgeBC] : List DelegateRow),
       (tfind (scopeVoices stA self_account) e.delegator).isSome = true) ∧
     mimicvote cfgA stA "c" "b" self_account 2 pctC trust 100 =
       .ok (([edgeBC] : List DelegateRow).map (fun e => Deferred.voteOnBehalf e.delegator 2
         (ratFloorNat ((tget (scopeVoices stA self_account) e.delegator : ℚ) * pctC)) trust))) ∧
    (pfind stA.props 2 = some (propC3 100 100) ∧
     delIndex stA (if get_type (propC3 100 100).fund = alliance_type then alliance_type
       else self_account) "b" = [edgeAB] ∧
     ∃ pct, dsB = [Deferred.mimic "b" "a"
       (if get_type (propC3 100 100).fund = alliance_type then alliance_type
        else self_account) 2 pct trust (cfgA "batchsize")]) :=
  ⟨⟨by decide, by decide, by decide, by decide, by decide,
    mimic_fanout_same_fraction_and_cascades.1 cfgA stA "c" "b" self_account 2 pctC trust
      100 edgeBC [] (by decide) (Or.inl rfl) (by decide) (by decide) (by decide)
      (by decide)⟩,
   ⟨by decide, by decide,
    mimic_fanout_same_fraction_and_cascades.2.2 cfgA 77 stA "b" 2 50 stB dsB
      (propC3 100 100) edgeAB [] (by decide) stepB (by decide)⟩⟩
